import Mathlib

/-!
Shallow embedding of the SIMP topology-optimization FEA core (`src/fea.cpp`):
mesh and DOF bookkeeping, the boundary-aware density filter, the plane-stress
element stiffness template, sparse assembly of the free-DOF equilibrium
system, the SIMP interpolation/sensitivity step, and the density-loading
routine, together with theorems checking the specification's claims.

Machine floats are modelled by exact real numbers `ℝ` (rationals `ℚ` where a
quantity stays rational and decidability matters); `Eigen` vectors and arrays
are modelled by index functions and lists.
-/

namespace FEA

/-- Two-dimensional array of real values (models `Eigen::ArrayXXf` / `ArrayXXf`-shaped
expressions).  `entry` carries the array's values on `[0, rows) × [0, cols)`;
values outside that rectangle are never read by the operations below. -/
structure Arr where
  rows : ℕ
  cols : ℕ
  entry : ℤ → ℤ → ℝ

/-- The function `filter(m, kernel)` from `fea.cpp`: plain 2-D correlation over the kernel
window, where any source access outside the bounds of `m` is skipped (the
branch guarding the inner loop and the per-column bound check in the source),
i.e. boundary truncation rather than zero padding.  The kernel center is at
`(kernel.rows / 2, kernel.cols / 2)` (integer division, as in the source). -/
def filter (m kernel : Arr) : Arr where
  rows := m.rows
  cols := m.cols
  entry := fun i j =>
    ∑ k ∈ Finset.range kernel.rows,
      (if 0 ≤ i + (k : ℤ) - (kernel.rows / 2 : ℕ) ∧
          i + (k : ℤ) - (kernel.rows / 2 : ℕ) < (m.rows : ℤ) then
        ∑ l ∈ Finset.range kernel.cols,
          (if 0 ≤ j + (l : ℤ) - (kernel.cols / 2 : ℕ) ∧
              j + (l : ℤ) - (kernel.cols / 2 : ℕ) < (m.cols : ℤ) then
            m.entry (i + (k : ℤ) - (kernel.rows / 2 : ℕ))
                (j + (l : ℤ) - (kernel.cols / 2 : ℕ)) *
              kernel.entry (k : ℤ) (l : ℤ)
          else 0)
      else 0)

/-- Models `Eigen::ArrayXXf::Ones(rows, cols)`. -/
def ones (rows cols : ℕ) : Arr where
  rows := rows
  cols := cols
  entry := fun _ _ => 1

/-- Elementwise quotient of two equally-shaped arrays (Eigen `array / array`,
as in `filter(...) / fea.filter_weights`). -/
noncomputable def adiv (a b : Arr) : Arr where
  rows := a.rows
  cols := a.cols
  entry := fun i j => a.entry i j / b.entry i j

/-- Models `vec.reshaped(rows, cols)` for a length-`rows*cols` vector: Eigen's
default column-major reshape, entry `(i, j) = v (j * rows + i)`. -/
def reshape_col (rows cols : ℕ) (v : ℕ → ℝ) : Arr where
  rows := rows
  cols := cols
  entry := fun i j => v (j.toNat * rows + i.toNat)

/-- Models `.reshaped()` of a 2-D array back into a flat vector, column-major:
entry `e = j * rows + i` reads array cell `(e % rows, e / rows)`. -/
def unshape (rows : ℕ) (a : Arr) : ℕ → ℝ :=
  fun e => a.entry ((e % rows : ℕ) : ℤ) ((e / rows : ℕ) : ℤ)

/-- Loop body of `filtered_index_vector(size, discard)` from `fea.cpp`:
walks `i` upward (`fuel` iterations remain), consuming the sorted `discard`
list; `i` is emitted unless it equals the current head of `discard`. -/
def fivLoop : List ℕ → ℕ → ℕ → List ℕ
  | _, _, 0 => []
  | [], i, fuel + 1 => i :: fivLoop [] (i + 1) fuel
  | d :: rest, i, fuel + 1 =>
    if i = d then fivLoop rest (i + 1) fuel
    else i :: fivLoop (d :: rest) (i + 1) fuel

/-- The function `filtered_index_vector(size, discard)` from `fea.cpp`: the ascending
list of indices in `[0, size)` that do not appear in the ascending,
duplicate-free list `discard`. -/
def filtered_index_vector (size : ℕ) (discard : List ℕ) : List ℕ :=
  fivLoop discard 0 size

/-- Loop body building `fea.all_to_free` in `fea_init`: for each DOF `i`
(`fuel` iterations remain), if `i` is in the sorted free-DOF list
(`std::binary_search`) it receives the running counter, which is then
incremented; otherwise it receives the sentinel `-1`. -/
def atfLoop (free : List ℕ) : ℕ → ℕ → ℕ → List ℤ
  | _, _, 0 => []
  | counter, i, fuel + 1 =>
    if i ∈ free then (counter : ℤ) :: atfLoop free (counter + 1) (i + 1) fuel
    else (-1 : ℤ) :: atfLoop free counter (i + 1) fuel

/-- Eigen's `VectorXi::LinSpaced(size, low, high)` for integer scalars with
`low ≤ high` (the only case `fea_init` uses): when the range is at least as
long as the step count, entry `i` is `low + i * ((high - low) / (size - 1))`
with truncating integer division; otherwise entry `i` is `low + i / divisor`
with `divisor = (size + (high - low)) / (high - low + 1)`. -/
def linSpaced (size low high : ℕ) : List ℕ :=
  (List.range size).map fun i =>
    if 1 < size ∧ high - low + 1 < size then
      low + i / ((size + (high - low)) / (high - low + 1))
    else
      low + i * ((high - low) / (if size ≤ 1 then 1 else size - 1))

/-- Models `node_indices(i, j)` from `fea_init`: the node grid is the column-major
reshape of `0, 1, …, num_nodes - 1` into `(ny + 1) × (nx + 1)`. -/
def node_index (e_y : ℕ) (i j : ℕ) : ℕ := j * (e_y + 1) + i

/-- Total DOF count: two DOFs per node of the `(nx + 1) × (ny + 1)` grid. -/
def num_dofs (e_x e_y : ℕ) : ℕ := 2 * ((e_x + 1) * (e_y + 1))

/-- Models `connectivity_vector(e)` from `fea_init`: twice the node index of the
element's first node; element `e` maps to grid cell `(e % ny, e / ny)`
(column-major reshape of the `ny × nx` top-left block). -/
def connectivity_base (e_y : ℕ) (e : ℕ) : ℕ :=
  2 * node_index e_y (e % e_y) (e / e_y)

/-- The fixed row of eight DOF offsets added to each element's base DOF
index in `fea_init` (counter-clockwise node order, 2 DOFs per node). -/
def connectivity_offset (e_y : ℕ) (c : ℕ) : ℕ :=
  [2, 3, 2 * (e_y + 1) + 2, 2 * (e_y + 1) + 3, 2 * (e_y + 1),
    2 * (e_y + 1) + 1, 0, 1].getD c 0

/-- Models `fea.connectivity_matrix(e, c)`: the `c`-th of the 8 global DOF indices
of element `e`. -/
def connectivity_matrix (e_y : ℕ) (e c : ℕ) : ℕ :=
  connectivity_base e_y e + connectivity_offset e_y c

/-- The table `dof_connectivities_i` from `fea_init` (row indices of the 36 lower
triangle entries of the 8×8 local matrix, column-major). -/
def dof_connectivities_i : List ℕ :=
  [0, 1, 2, 3, 4, 5, 6, 7, 1, 2, 3, 4, 5, 6, 7, 2, 3, 4,
    5, 6, 7, 3, 4, 5, 6, 7, 4, 5, 6, 7, 5, 6, 7, 6, 7, 7]

/-- The table `dof_connectivities_j` from `fea_init` (matching column indices). -/
def dof_connectivities_j : List ℕ :=
  [0, 0, 0, 0, 0, 0, 0, 0, 1, 1, 1, 1, 1, 1, 1, 2, 2, 2,
    2, 2, 2, 3, 3, 3, 3, 3, 4, 4, 4, 4, 5, 5, 5, 6, 6, 7]

/-- Models `fea.stiffness_matrix_indices`: row `q` from `fea_init`: contribution `q`
belongs to element `q / 36` and local pair `q % 36` (the transpose-reshape
is column-major), and its two global DOF indices are stored canonically as
`(max, min)` (`cwiseMax` / `cwiseMin` in the source). -/
def stiffness_matrix_indices (e_y : ℕ) (q : ℕ) : ℕ × ℕ :=
  let a := connectivity_matrix e_y (q / 36) (dof_connectivities_i.getD (q % 36) 0)
  let b := connectivity_matrix e_y (q / 36) (dof_connectivities_j.getD (q % 36) 0)
  (max a b, min a b)

/-- First hard-coded length-36 coefficient table of the element stiffness
template in `fea_init`. -/
def element_stiffness_matrix_values_1 : List ℤ :=
  [12, 3, -6, -3, -6, -3, 0, 3, 12, 3, 0, -3, -6, -3, -6, 12, -3, 0,
    -3, -6, 3, 12, 3, -6, 3, -6, 12, 3, -6, -3, 12, 3, 0, 12, -3, 12]

/-- Second hard-coded length-36 coefficient table of the element stiffness
template in `fea_init`. -/
def element_stiffness_matrix_values_2 : List ℤ :=
  [-4, 3, -2, 9, 2, -3, 4, -9, -4, -9, 4, -3, 2, 9, -2, -4, -3, 4,
    9, 2, 3, -4, -9, -2, 3, 2, -4, 3, -2, 9, -4, -9, 4, -4, -3, -4]

/-- The fixed Poisson ratio `fea.poisson_ratio = 0.3f`, kept as the exact
rational `3/10`. -/
def poisson_q : ℚ := 3 / 10

/-- Models `fea.element_stiffness_matrix_values` from `fea_init`:
`1/24 / (1 - ν²) · (c1 + ν·c2)` over the two coefficient tables, computed
exactly over `ℚ`. -/
def element_stiffness_matrix_values_q (p : ℕ) : ℚ :=
  1 / 24 / (1 - poisson_q * poisson_q) *
    ((element_stiffness_matrix_values_1.getD p 0 : ℚ) +
      poisson_q * (element_stiffness_matrix_values_2.getD p 0 : ℚ))

/-- Position assigned to lower-triangle cell `(i, j)` (with `i ≥ j`) by the
fill loop in `fea_init` (`j` outer from 0, `i` inner from `j`):
all full columns before `j`, then the offset inside column `j`. -/
def lower_tri_index (i j : ℕ) : ℕ :=
  (∑ t ∈ Finset.range j, (8 - t)) + (i - j)

/-- Models `fea.element_stiffness_matrix`: the symmetric 8×8 matrix whose lower
triangle (and mirrored upper triangle) is filled from
`element_stiffness_matrix_values` by the double loop in `fea_init`. -/
def element_stiffness_matrix_q (i j : ℕ) : ℚ :=
  element_stiffness_matrix_values_q (lower_tri_index (max i j) (min i j))

/-- The `fixed_dofs` vector built in `fea_init`: the integer
`LinSpaced(ny + 1, 0, 2*(ny + 1) - 1)` column, then the vertical DOF of the
grid's last node (`2 * node_indices(last, last) + 1`). -/
def fixed_dofs (e_x e_y : ℕ) : List ℕ :=
  linSpaced (e_y + 1) 0 (2 * (e_y + 1) - 1) ++ [2 * node_index e_y e_y e_x + 1]

/-- Models `fea.free_dofs`: ascending complement of `fixed_dofs` in `[0, num_dofs)`. -/
def free_dofs (e_x e_y : ℕ) : List ℕ :=
  filtered_index_vector (num_dofs e_x e_y) (fixed_dofs e_x e_y)

/-- Models `fea.all_to_free`: maps each DOF to its compacted index among the free
DOFs, or `-1` if fixed. -/
def all_to_free (e_x e_y : ℕ) : List ℤ :=
  atfLoop (free_dofs e_x e_y) 0 0 (num_dofs e_x e_y)

/-- Array read `fea.all_to_free(d)` (the C++ vector is only ever indexed
with `d < num_dofs`). -/
def atf (e_x e_y : ℕ) (d : ℕ) : ℤ :=
  (all_to_free e_x e_y).getD d (-1)

/-- Models `kernel_size` in `fea_init`: `2 * ceil(radius_min) - 1`. -/
def kernel_size (radius_min : ℚ) : ℕ :=
  (2 * ⌈radius_min⌉ - 1).toNat

/-- Models `kernel_min_coord` in `fea_init`: `-ceil(radius_min) + 1`. -/
def kernel_min_coord (radius_min : ℚ) : ℤ :=
  -⌈radius_min⌉ + 1

/-- Models `fea.filter_kernel` from `fea_init`: radially symmetric cone kernel,
`max(radius_min - hypot(x, y), 0)` at integer offsets from the center
(`hypot(x, y) = √(x² + y²)`). -/
noncomputable def filter_kernel (radius_min : ℚ) : Arr where
  rows := kernel_size radius_min
  cols := kernel_size radius_min
  entry := fun i j =>
    max ((radius_min : ℝ) -
      Real.sqrt (((kernel_min_coord radius_min + j : ℤ) : ℝ) ^ 2 +
        ((kernel_min_coord radius_min + i : ℤ) : ℝ) ^ 2)) 0

/-- The mutable FEA/optimization state (`struct FEA_state` in `fea.cpp`).
Vectors of machine floats are modelled as functions `ℕ → ℝ`, integer index
vectors as lists. -/
structure FEA_state where
  num_elements_x : ℕ
  num_elements_y : ℕ
  num_elements : ℕ
  num_nodes_x : ℕ
  num_nodes_y : ℕ
  num_nodes : ℕ
  num_dofs : ℕ
  num_dofs_per_node : ℕ
  young_modulus : ℝ
  young_modulus_min : ℝ
  poisson : ℝ
  volume_fraction : ℝ
  penalization : ℝ
  radius_min : ℚ
  move : ℝ
  connectivity_matrix : ℕ → ℕ → ℕ
  stiffness_matrix_indices : ℕ → ℕ × ℕ
  element_stiffness_matrix_values : ℕ → ℝ
  element_stiffness_matrix : ℕ → ℕ → ℝ
  young_moduli : ℕ → ℝ
  stiffness_matrix_values : ℕ → ℝ
  passive_solid : List ℕ
  passive_void : List ℕ
  active_elements : List ℕ
  free_dofs : List ℕ
  all_to_free : List ℤ
  forces : ℕ → ℝ
  displacements : ℕ → ℝ
  filter_kernel : Arr
  filter_weights : Arr
  design_variables : ℕ → ℝ
  design_variables_physical : ℕ → ℝ
  design_variables_old : ℕ → ℝ
  stiffness_derivative : ℕ → ℝ
  volume_derivative : ℕ → ℝ

/-- Models `fea_init(num_elements_x, num_elements_y, volume_fraction, penalization,
radius_min, move)` from `fea.cpp`, field by field.  The passive element
lists are empty in the source (`fea.passive_solid = {}`). -/
noncomputable def fea_init (e_x e_y : ℕ) (vf p : ℝ) (r : ℚ) (mv : ℝ) :
    FEA_state :=
  let ne := e_x * e_y
  let ps : List ℕ := []
  let pv : List ℕ := []
  let active := filtered_index_vector ne (ps ++ pv)
  { num_elements_x := e_x
    num_elements_y := e_y
    num_elements := ne
    num_nodes_x := e_x + 1
    num_nodes_y := e_y + 1
    num_nodes := (e_x + 1) * (e_y + 1)
    num_dofs := num_dofs e_x e_y
    num_dofs_per_node := 2
    young_modulus := 1
    young_modulus_min := 1e-9
    poisson := 0.3
    volume_fraction := vf
    penalization := p
    radius_min := r
    move := mv
    connectivity_matrix := connectivity_matrix e_y
    stiffness_matrix_indices := stiffness_matrix_indices e_y
    element_stiffness_matrix_values := fun q =>
      (element_stiffness_matrix_values_q q : ℝ)
    element_stiffness_matrix := fun i j => (element_stiffness_matrix_q i j : ℝ)
    young_moduli := fun _ => 0
    stiffness_matrix_values := fun _ => 0
    passive_solid := ps
    passive_void := pv
    active_elements := active
    free_dofs := free_dofs e_x e_y
    all_to_free := all_to_free e_x e_y
    forces := fun k => if (k : ℤ) = atf e_x e_y (2 * node_index e_y 0 0 + 1)
      then -1 else 0
    displacements := fun _ => 0
    filter_kernel := filter_kernel r
    filter_weights := filter (ones e_y e_x) (filter_kernel r)
    design_variables := fun e =>
      if e ∈ ps then 1
      else if e ∈ active then
        (vf * ((ne : ℝ) - (ps.length : ℝ)) - (ps.length : ℝ)) /
          (active.length : ℝ)
      else 0
    design_variables_physical := fun _ => 0
    design_variables_old := fun _ => 1
    stiffness_derivative := fun _ => 0
    volume_derivative := fun e =>
      if e ∈ active then 1 / (ne : ℝ) / vf else 0 }

/-- The triplet list built by the assembly loop in `solve_equilibrium_system`:
for each of the `36 * num_elements` contributions, both canonical global DOF
indices are mapped through `all_to_free`; the contribution survives exactly
when neither endpoint is fixed (mapped to `-1`). -/
noncomputable def triplets (s : FEA_state) : List (ℤ × ℤ × ℝ) :=
  (List.range (36 * s.num_elements)).filterMap fun q =>
    let mi := s.all_to_free.getD (s.stiffness_matrix_indices q).1 (-1)
    let mj := s.all_to_free.getD (s.stiffness_matrix_indices q).2 (-1)
    if mi ≠ -1 ∧ mj ≠ -1 then some (mi, mj, s.stiffness_matrix_values q)
    else none

/-- The sparse matrix produced by `setFromTriplets` (followed by
`prune(0.0f)`, which drops stored zeros without changing any entry): the
`(r, c)` entry is the SUM of the values of all triplets with key `(r, c)`. -/
noncomputable def assembled_matrix (s : FEA_state) : ℤ → ℤ → ℝ := fun r c =>
  (((triplets s).filter fun t => t.1 = r ∧ t.2.1 = c).map fun t => t.2.2).sum

/-- The success path of `solve_equilibrium_system`: the external sparse
solver (Eigen `SimplicialLDLT`, an external capability) is modelled as an
oracle taking the assembled matrix and the force vector; the full
displacement vector is rebuilt by zero-filling (`setZero`) and scattering
the free-DOF solution into the `free_dofs` positions. -/
noncomputable def solve_equilibrium
    (oracle : (ℤ → ℤ → ℝ) → (ℕ → ℝ) → (ℕ → ℝ)) (s : FEA_state) : FEA_state :=
  let sol := oracle (assembled_matrix s) s.forces
  { s with displacements := fun d =>
      if s.all_to_free.getD d (-1) = -1 then 0
      else sol (s.all_to_free.getD d (-1)).toNat }

/-- Models `fea_solve` from `fea.cpp`: overwrite `young_moduli` with the constant
`young_modulus` (`setConstant`), scale the element template by each
element's modulus (`element_stiffness_matrix_values * young_moduli^T`,
reshaped column-major), then solve the equilibrium system. -/
noncomputable def fea_solve (oracle : (ℤ → ℤ → ℝ) → (ℕ → ℝ) → (ℕ → ℝ))
    (s : FEA_state) : FEA_state :=
  let s1 := { s with young_moduli := fun _ => s.young_modulus }
  let s2 := { s1 with stiffness_matrix_values := fun q =>
      s1.element_stiffness_matrix_values (q % 36) * s1.young_moduli (q / 36) }
  solve_equilibrium oracle s2

/-- Models `fea_optimization_step` from `fea.cpp` (the state mutation; the
convergence scalar is printed, and the filtered sensitivity fields are
computed but discarded by the source).  Forward filter the raw design
variables and normalize by `filter_weights`; copy into
`design_variables_physical` at the active elements; save
`design_variables_old`; SIMP-interpolate `young_moduli`; write the
stiffness sensitivity at the active elements; rebuild the scaled stiffness
values; solve the equilibrium system. -/
noncomputable def fea_optimization_step
    (oracle : (ℤ → ℤ → ℝ) → (ℕ → ℝ) → (ℕ → ℝ)) (s : FEA_state) : FEA_state :=
  let dvf : ℕ → ℝ := unshape s.num_elements_y
    (adiv (filter (reshape_col s.num_elements_y s.num_elements_x
        s.design_variables) s.filter_kernel) s.filter_weights)
  let physical : ℕ → ℝ := fun e =>
    if e ∈ s.active_elements then dvf e else s.design_variables_physical e
  let moduli : ℕ → ℝ := fun e =>
    s.young_modulus_min +
      physical e ^ s.penalization * (s.young_modulus - s.young_modulus_min)
  let sderiv : ℕ → ℝ := fun e =>
    if e ∈ s.active_elements then
      -s.penalization * (s.young_modulus - s.young_modulus_min) *
        physical e ^ (s.penalization - 1)
    else s.stiffness_derivative e
  let s1 := { s with
    design_variables_physical := physical
    design_variables_old := physical
    young_moduli := moduli
    stiffness_derivative := sderiv
    stiffness_matrix_values := fun q =>
      s.element_stiffness_matrix_values (q % 36) * moduli (q / 36) }
  solve_equilibrium oracle s1

/-- Models `displacement_matrix` from `fea_optimization_step`: row `e` gathers the
8 local displacement components of element `e` through the connectivity
table. -/
noncomputable def displacement_matrix (s : FEA_state) (e c : ℕ) : ℝ :=
  s.displacements (s.connectivity_matrix e c)

/-- Models `compliance_derivative` from `fea_optimization_step`:
`stiffness_derivative(e) · (u_eᵀ · K0 · u_e)` with `K0` the unit-modulus
element stiffness matrix (`(U * K0).cwiseProduct(U).rowwise().sum()` in the
source). -/
noncomputable def compliance_derivative (s : FEA_state) (e : ℕ) : ℝ :=
  s.stiffness_derivative e *
    ∑ j ∈ Finset.range 8,
      (∑ k ∈ Finset.range 8,
        displacement_matrix s e k * s.element_stiffness_matrix k j) *
        displacement_matrix s e j

/-- Models `to_string(Eigen::ComputationInfo)` from `fea.cpp`.  The enum values are
`Success = 0`, `NumericalIssue = 1`, `NoConvergence = 2`,
`InvalidInput = 3`; any other value falls through the `switch` to
`"UNDEFINED"`. -/
def to_string (computation_info : ℤ) : String :=
  if computation_info = 0 then "Success"
  else if computation_info = 1 then "NumericalIssue"
  else if computation_info = 2 then "NoConvergence"
  else if computation_info = 3 then "InvalidInput"
  else "UNDEFINED"

/-- The error path of `solve_equilibrium_system`: the factorization outcome
is checked right after `solver.compute` and the solve outcome right after
`solver.solve`; a non-`Success` outcome immediately throws a
`runtime_error` whose message carries the outcome kind, and no retry
exists.  The two outcomes reported by the external solver are inputs
(`factor_info`, `solve_info`), the solution oracle is as in
`solve_equilibrium`. -/
noncomputable def solve_equilibrium_system (factor_info solve_info : ℤ)
    (oracle : (ℤ → ℤ → ℝ) → (ℕ → ℝ) → (ℕ → ℝ)) (s : FEA_state) :
    Except String FEA_state :=
  if factor_info ≠ 0 then
    Except.error ("Decomposition failed: " ++ to_string factor_info)
  else
    let s' := solve_equilibrium oracle s
    if solve_info ≠ 0 then
      Except.error ("Solving failed: " ++ to_string solve_info)
    else Except.ok s'

/-- Models `load_densities(densities, file_name)` from `fea.cpp`.  The file is
modelled as `none` when it cannot be opened, and otherwise as the list of
float values that successive stream extractions parse before the stream
fails.  An unopenable file is logged and the vector returned untouched;
otherwise every one of the `100 * 200 = 20000` entries is written: the
`i`-th extraction stores the `i`-th parsed value, and a failed extraction
(file exhausted or malformed) stores `0` (C++11 stream semantics). -/
def load_densities (densities : ℕ → ℝ) (file : Option (List ℝ)) : ℕ → ℝ :=
  match file with
  | none => densities
  | some vals => fun i =>
      if i < 100 * 200 then vals.getD i 0 else densities i

/-- The nested bound checks of `filter` flattened into one conditional sum
over both kernel coordinates. -/
theorem filter_entry_flatten (m kernel : Arr) (i j : ℤ) :
    (filter m kernel).entry i j =
      ∑ k ∈ Finset.range kernel.rows, ∑ l ∈ Finset.range kernel.cols,
        if (0 ≤ i + (k : ℤ) - (kernel.rows / 2 : ℕ) ∧
              i + (k : ℤ) - (kernel.rows / 2 : ℕ) < (m.rows : ℤ)) ∧
            (0 ≤ j + (l : ℤ) - (kernel.cols / 2 : ℕ) ∧
              j + (l : ℤ) - (kernel.cols / 2 : ℕ) < (m.cols : ℤ)) then
          m.entry (i + (k : ℤ) - (kernel.rows / 2 : ℕ))
              (j + (l : ℤ) - (kernel.cols / 2 : ℕ)) *
            kernel.entry (k : ℤ) (l : ℤ)
        else 0 := by
  show (∑ k ∈ Finset.range kernel.rows, _) = _
  refine Finset.sum_congr rfl fun k _ => ?_
  by_cases hrow : 0 ≤ i + (k : ℤ) - (kernel.rows / 2 : ℕ) ∧
      i + (k : ℤ) - (kernel.rows / 2 : ℕ) < (m.rows : ℤ)
  · rw [if_pos hrow]
    refine Finset.sum_congr rfl fun l _ => ?_
    by_cases hcol : 0 ≤ j + (l : ℤ) - (kernel.cols / 2 : ℕ) ∧
        j + (l : ℤ) - (kernel.cols / 2 : ℕ) < (m.cols : ℤ)
    · rw [if_pos hcol, if_pos ⟨hrow, hcol⟩]
    · rw [if_neg hcol, if_neg fun h => hcol h.2]
  · rw [if_neg hrow]
    symm
    refine Finset.sum_eq_zero fun l _ => ?_
    exact if_neg fun h => hrow h.1

/-- The function `filter` applied to an all-ones field: each cell is the sum of the
kernel entries whose offset cell lies inside the domain. -/
theorem filter_ones_flatten (rows cols : ℕ) (kernel : Arr) (i j : ℤ) :
    (filter (ones rows cols) kernel).entry i j =
      ∑ k ∈ Finset.range kernel.rows, ∑ l ∈ Finset.range kernel.cols,
        if (0 ≤ i + (k : ℤ) - (kernel.rows / 2 : ℕ) ∧
              i + (k : ℤ) - (kernel.rows / 2 : ℕ) < (rows : ℤ)) ∧
            (0 ≤ j + (l : ℤ) - (kernel.cols / 2 : ℕ) ∧
              j + (l : ℤ) - (kernel.cols / 2 : ℕ) < (cols : ℤ)) then
          kernel.entry (k : ℤ) (l : ℤ)
        else 0 := by
  have hw := filter_entry_flatten (ones rows cols) kernel i j
  simpa only [ones, one_mul] using hw

/-- C2: `filter(field, kernel)` has the same shape as `field`; each output
cell `(i, j)` is the sum of `field[i+k-kc, j+l-kc] * kernel[k, l]` over
exactly those kernel offsets whose source index lies inside the field's
bounds (out-of-bounds accesses skipped, not zero-padded); consequently
`filter(ones, kernel)` (the `filter_weights` precomputation) is, per cell,
the sum of the kernel entries whose offset cell lies inside the domain, and
for an odd-sized kernel it equals the sum of all kernel entries at every
cell at distance at least the kernel half-width from every boundary. -/
theorem filter_spec (m kernel : Arr) :
    (filter m kernel).rows = m.rows ∧ (filter m kernel).cols = m.cols ∧
    (∀ i j : ℤ,
      (filter m kernel).entry i j =
        ∑ k ∈ Finset.range kernel.rows, ∑ l ∈ Finset.range kernel.cols,
          if (0 ≤ i + (k : ℤ) - (kernel.rows / 2 : ℕ) ∧
                i + (k : ℤ) - (kernel.rows / 2 : ℕ) < (m.rows : ℤ)) ∧
              (0 ≤ j + (l : ℤ) - (kernel.cols / 2 : ℕ) ∧
                j + (l : ℤ) - (kernel.cols / 2 : ℕ) < (m.cols : ℤ)) then
            m.entry (i + (k : ℤ) - (kernel.rows / 2 : ℕ))
                (j + (l : ℤ) - (kernel.cols / 2 : ℕ)) *
              kernel.entry (k : ℤ) (l : ℤ)
          else 0) ∧
    (∀ i j : ℤ,
      (filter (ones m.rows m.cols) kernel).entry i j =
        ∑ k ∈ Finset.range kernel.rows, ∑ l ∈ Finset.range kernel.cols,
          if (0 ≤ i + (k : ℤ) - (kernel.rows / 2 : ℕ) ∧
                i + (k : ℤ) - (kernel.rows / 2 : ℕ) < (m.rows : ℤ)) ∧
              (0 ≤ j + (l : ℤ) - (kernel.cols / 2 : ℕ) ∧
                j + (l : ℤ) - (kernel.cols / 2 : ℕ) < (m.cols : ℤ)) then
            kernel.entry (k : ℤ) (l : ℤ)
          else 0) ∧
    (∀ i j : ℤ, kernel.rows % 2 = 1 → kernel.cols % 2 = 1 →
      ((kernel.rows / 2 : ℕ) : ℤ) ≤ i → i + (kernel.rows / 2 : ℕ) < (m.rows : ℤ) →
      ((kernel.cols / 2 : ℕ) : ℤ) ≤ j → j + (kernel.cols / 2 : ℕ) < (m.cols : ℤ) →
      (filter (ones m.rows m.cols) kernel).entry i j =
        ∑ k ∈ Finset.range kernel.rows, ∑ l ∈ Finset.range kernel.cols,
          kernel.entry (k : ℤ) (l : ℤ)) := by
  have hmain := filter_entry_flatten m kernel
  have hweights : ∀ i j : ℤ,
      (filter (ones m.rows m.cols) kernel).entry i j =
        ∑ k ∈ Finset.range kernel.rows, ∑ l ∈ Finset.range kernel.cols,
          if (0 ≤ i + (k : ℤ) - (kernel.rows / 2 : ℕ) ∧
                i + (k : ℤ) - (kernel.rows / 2 : ℕ) < (m.rows : ℤ)) ∧
              (0 ≤ j + (l : ℤ) - (kernel.cols / 2 : ℕ) ∧
                j + (l : ℤ) - (kernel.cols / 2 : ℕ) < (m.cols : ℤ)) then
            kernel.entry (k : ℤ) (l : ℤ)
          else 0 :=
    fun i j => filter_ones_flatten m.rows m.cols kernel i j
  refine ⟨rfl, rfl, hmain, hweights, fun i j hor hoc hi1 hi2 hj1 hj2 => ?_⟩
  rw [hweights i j]
  refine Finset.sum_congr rfl fun k hk => Finset.sum_congr rfl fun l hl => ?_
  rw [Finset.mem_range] at hk hl
  refine if_pos ⟨⟨?_, ?_⟩, ⟨?_, ?_⟩⟩ <;> omega

/-- Witness for C2 at the concrete field `ones 3 3` and an all-ones 3×3
kernel, at the interior cell `(1, 1)`. -/
theorem filter_spec_witness :
    (ones 3 3).rows % 2 = 1 ∧ (ones 3 3).cols % 2 = 1 ∧
    (((ones 3 3).rows / 2 : ℕ) : ℤ) ≤ (1 : ℤ) ∧
    (1 : ℤ) + ((ones 3 3).rows / 2 : ℕ) < ((ones 3 3).rows : ℤ) ∧
    (filter (ones (ones 3 3).rows (ones 3 3).cols) (ones 3 3)).entry 1 1 =
      ∑ k ∈ Finset.range (ones 3 3).rows, ∑ l ∈ Finset.range (ones 3 3).cols,
        (ones 3 3).entry (k : ℤ) (l : ℤ) :=
  ⟨by decide, by decide, by decide, by decide,
    (filter_spec (ones 3 3) (ones 3 3)).2.2.2.2 1 1 (by decide) (by decide)
      (by decide) (by decide) (by decide) (by decide)⟩

/-- The cone filter kernel has nonnegative entries everywhere. -/
theorem filter_kernel_entry_nonneg (r : ℚ) (a b : ℤ) :
    0 ≤ (filter_kernel r).entry a b :=
  le_max_right _ _

/-- A filtered field is entrywise nonnegative when both the kernel window
and the field's in-domain entries are nonnegative. -/
theorem filter_entry_nonneg (m kernel : Arr)
    (hker : ∀ k l : ℕ, k < kernel.rows → l < kernel.cols →
      0 ≤ kernel.entry (k : ℤ) (l : ℤ))
    (hm : ∀ a b : ℤ, 0 ≤ a → a < (m.rows : ℤ) → 0 ≤ b → b < (m.cols : ℤ) →
      0 ≤ m.entry a b)
    (i j : ℤ) : 0 ≤ (filter m kernel).entry i j := by
  rw [filter_entry_flatten]
  refine Finset.sum_nonneg fun k hk => Finset.sum_nonneg fun l hl => ?_
  rw [Finset.mem_range] at hk hl
  by_cases h : (0 ≤ i + (k : ℤ) - (kernel.rows / 2 : ℕ) ∧
        i + (k : ℤ) - (kernel.rows / 2 : ℕ) < (m.rows : ℤ)) ∧
      (0 ≤ j + (l : ℤ) - (kernel.cols / 2 : ℕ) ∧
        j + (l : ℤ) - (kernel.cols / 2 : ℕ) < (m.cols : ℤ))
  · rw [if_pos h]
    exact mul_nonneg (hm _ _ h.1.1 h.1.2 h.2.1 h.2.2) (hker k l hk hl)
  · rw [if_neg h]

/-- A filtered field is entrywise bounded by the filter weights (the
filtered all-ones field) when the kernel window is nonnegative and the
field's in-domain entries lie below 1. -/
theorem filter_entry_le_ones (m kernel : Arr)
    (hker : ∀ k l : ℕ, k < kernel.rows → l < kernel.cols →
      0 ≤ kernel.entry (k : ℤ) (l : ℤ))
    (hm : ∀ a b : ℤ, 0 ≤ a → a < (m.rows : ℤ) → 0 ≤ b → b < (m.cols : ℤ) →
      m.entry a b ≤ 1)
    (i j : ℤ) :
    (filter m kernel).entry i j ≤
      (filter (ones m.rows m.cols) kernel).entry i j := by
  rw [filter_entry_flatten, filter_ones_flatten]
  refine Finset.sum_le_sum fun k hk => Finset.sum_le_sum fun l hl => ?_
  rw [Finset.mem_range] at hk hl
  by_cases h : (0 ≤ i + (k : ℤ) - (kernel.rows / 2 : ℕ) ∧
        i + (k : ℤ) - (kernel.rows / 2 : ℕ) < (m.rows : ℤ)) ∧
      (0 ≤ j + (l : ℤ) - (kernel.cols / 2 : ℕ) ∧
        j + (l : ℤ) - (kernel.cols / 2 : ℕ) < (m.cols : ℤ))
  · rw [if_pos h, if_pos h]
    calc m.entry _ _ * kernel.entry (k : ℤ) (l : ℤ) ≤
        1 * kernel.entry (k : ℤ) (l : ℤ) :=
          mul_le_mul_of_nonneg_right (hm _ _ h.1.1 h.1.2 h.2.1 h.2.2)
            (hker k l hk hl)
      _ = kernel.entry (k : ℤ) (l : ℤ) := one_mul _
  · rw [if_neg h, if_neg h]

/-- The filter weights of the cone kernel are strictly positive at every
in-domain cell: the kernel's center entry, which always overlaps the
domain, equals `radius_min` itself. -/
theorem filter_weights_entry_pos (rows cols : ℕ) (r : ℚ) (hr : 1 ≤ r)
    (i j : ℤ) (hi0 : 0 ≤ i) (hi : i < (rows : ℤ))
    (hj0 : 0 ≤ j) (hj : j < (cols : ℤ)) :
    0 < (filter (ones rows cols) (filter_kernel r)).entry i j := by
  have hc : 0 < ⌈r⌉ := Int.ceil_pos.mpr (lt_of_lt_of_le one_pos hr)
  have hsize : ((filter_kernel r).rows : ℤ) = 2 * ⌈r⌉ - 1 := by
    show ((kernel_size r : ℕ) : ℤ) = 2 * ⌈r⌉ - 1
    unfold kernel_size
    omega
  have hcc : (((filter_kernel r).rows / 2 : ℕ) : ℤ) = ⌈r⌉ - 1 := by omega
  set c : ℕ := (filter_kernel r).rows / 2 with hcdef
  have hcmem : c ∈ Finset.range (filter_kernel r).rows := by
    rw [Finset.mem_range]
    omega
  have hcols : (filter_kernel r).cols = (filter_kernel r).rows := rfl
  have hcenter : (filter_kernel r).entry (c : ℤ) (c : ℤ) = (r : ℝ) := by
    show max ((r : ℝ) - Real.sqrt
      (((kernel_min_coord r + (c : ℤ) : ℤ) : ℝ) ^ 2 +
        ((kernel_min_coord r + (c : ℤ) : ℤ) : ℝ) ^ 2)) 0 = (r : ℝ)
    have hzero : kernel_min_coord r + (c : ℤ) = 0 := by
      unfold kernel_min_coord
      omega
    rw [hzero]
    norm_num
    exact le_trans zero_le_one (by exact_mod_cast hr)
  have hterm_nonneg : ∀ k l : ℕ, (0 : ℝ) ≤
      (if (0 ≤ i + (k : ℤ) - ((filter_kernel r).rows / 2 : ℕ) ∧
            i + (k : ℤ) - ((filter_kernel r).rows / 2 : ℕ) < (rows : ℤ)) ∧
          (0 ≤ j + (l : ℤ) - ((filter_kernel r).cols / 2 : ℕ) ∧
            j + (l : ℤ) - ((filter_kernel r).cols / 2 : ℕ) < (cols : ℤ)) then
        (filter_kernel r).entry (k : ℤ) (l : ℤ)
      else 0) := by
    intro k l
    by_cases h : (0 ≤ i + (k : ℤ) - ((filter_kernel r).rows / 2 : ℕ) ∧
          i + (k : ℤ) - ((filter_kernel r).rows / 2 : ℕ) < (rows : ℤ)) ∧
        (0 ≤ j + (l : ℤ) - ((filter_kernel r).cols / 2 : ℕ) ∧
          j + (l : ℤ) - ((filter_kernel r).cols / 2 : ℕ) < (cols : ℤ))
    · rw [if_pos h]
      exact filter_kernel_entry_nonneg r _ _
    · rw [if_neg h]
  rw [filter_ones_flatten]
  have hinner : (r : ℝ) ≤
      ∑ l ∈ Finset.range (filter_kernel r).cols,
        (if (0 ≤ i + (c : ℤ) - ((filter_kernel r).rows / 2 : ℕ) ∧
              i + (c : ℤ) - ((filter_kernel r).rows / 2 : ℕ) < (rows : ℤ)) ∧
            (0 ≤ j + (l : ℤ) - ((filter_kernel r).cols / 2 : ℕ) ∧
              j + (l : ℤ) - ((filter_kernel r).cols / 2 : ℕ) < (cols : ℤ)) then
          (filter_kernel r).entry (c : ℤ) (l : ℤ)
        else 0) := by
    have hcmem' : c ∈ Finset.range (filter_kernel r).cols := by
      rw [hcols]
      exact hcmem
    refine le_trans ?_ (Finset.single_le_sum (f := fun l : ℕ =>
      (if (0 ≤ i + (c : ℤ) - ((filter_kernel r).rows / 2 : ℕ) ∧
            i + (c : ℤ) - ((filter_kernel r).rows / 2 : ℕ) < (rows : ℤ)) ∧
          (0 ≤ j + (l : ℤ) - ((filter_kernel r).cols / 2 : ℕ) ∧
            j + (l : ℤ) - ((filter_kernel r).cols / 2 : ℕ) < (cols : ℤ)) then
        (filter_kernel r).entry (c : ℤ) (l : ℤ)
      else 0)) (fun l _ => hterm_nonneg c l) hcmem')
    have hcond : (0 ≤ i + (c : ℤ) - ((filter_kernel r).rows / 2 : ℕ) ∧
          i + (c : ℤ) - ((filter_kernel r).rows / 2 : ℕ) < (rows : ℤ)) ∧
        (0 ≤ j + (c : ℤ) - ((filter_kernel r).cols / 2 : ℕ) ∧
          j + (c : ℤ) - ((filter_kernel r).cols / 2 : ℕ) < (cols : ℤ)) := by
      rw [hcols]
      constructor <;> constructor <;> omega
    simp only [if_pos hcond, hcenter, le_refl]
  calc (0 : ℝ) < (r : ℝ) := by exact_mod_cast lt_of_lt_of_le one_pos hr
    _ ≤ _ := le_trans hinner (Finset.single_le_sum (f := fun k : ℕ =>
        ∑ l ∈ Finset.range (filter_kernel r).cols,
          (if (0 ≤ i + (k : ℤ) - ((filter_kernel r).rows / 2 : ℕ) ∧
                i + (k : ℤ) - ((filter_kernel r).rows / 2 : ℕ) < (rows : ℤ)) ∧
              (0 ≤ j + (l : ℤ) - ((filter_kernel r).cols / 2 : ℕ) ∧
                j + (l : ℤ) - ((filter_kernel r).cols / 2 : ℕ) < (cols : ℤ)) then
            (filter_kernel r).entry (k : ℤ) (l : ℤ)
          else 0))
        (fun k _ => Finset.sum_nonneg fun l _ => hterm_nonneg k l) hcmem)

/-- The `filtered_index_vector` loop with nothing to discard lists its
whole index range. -/
theorem fivLoop_nil (n i : ℕ) : fivLoop [] i n = List.range' i n := by
  induction n generalizing i with
  | zero => rfl
  | succ n ih => rw [fivLoop, ih, List.range'_succ]

/-- With an empty discard list, `filtered_index_vector` lists `0, 1, …, size - 1`. -/
theorem filtered_index_vector_nil (n : ℕ) :
    filtered_index_vector n [] = List.range n := by
  rw [filtered_index_vector, fivLoop_nil, List.range_eq_range']

/-- Column-major flat index bound: `j * rows + i < cols * rows`. -/
theorem col_major_lt (i j rows cols : ℕ) (hj : j < cols) (hi : i < rows) :
    j * rows + i < cols * rows := by
  calc j * rows + i < j * rows + rows := by omega
    _ = (j + 1) * rows := by ring
    _ ≤ cols * rows := Nat.mul_le_mul_right rows hj

/-- C3: for every raw design-variable field with all entries in `[0, 1]`,
the forward-filtered physical density field computed by
`fea_optimization_step` (filter of the raw field divided elementwise by
`filter_weights`) also has all entries in `[0, 1]`. -/
theorem step_physical_in_unit_interval (e_x e_y : ℕ) (vf p : ℝ) (r : ℚ)
    (mv : ℝ) (oracle : (ℤ → ℤ → ℝ) → (ℕ → ℝ) → (ℕ → ℝ)) (dv : ℕ → ℝ)
    (hx : 1 ≤ e_x) (hy : 1 ≤ e_y) (hr : 1 ≤ r)
    (hdv : ∀ e, e < e_x * e_y → 0 ≤ dv e ∧ dv e ≤ 1)
    (e : ℕ) (he : e < e_x * e_y) :
    0 ≤ (fea_optimization_step oracle
      { fea_init e_x e_y vf p r mv with
        design_variables := dv }).design_variables_physical e ∧
    (fea_optimization_step oracle
      { fea_init e_x e_y vf p r mv with
        design_variables := dv }).design_variables_physical e ≤ 1 := by
  have hmem : e ∈ ({ fea_init e_x e_y vf p r mv with
      design_variables := dv } : FEA_state).active_elements := by
    show e ∈ filtered_index_vector (e_x * e_y) ([] ++ [])
    rw [List.nil_append, filtered_index_vector_nil, List.mem_range]
    exact he
  have hphys : (fea_optimization_step oracle
      { fea_init e_x e_y vf p r mv with
        design_variables := dv }).design_variables_physical e =
      if e ∈ ({ fea_init e_x e_y vf p r mv with
          design_variables := dv } : FEA_state).active_elements then
        (filter (reshape_col e_y e_x dv) (filter_kernel r)).entry
            ((e % e_y : ℕ) : ℤ) ((e / e_y : ℕ) : ℤ) /
          (filter (ones e_y e_x) (filter_kernel r)).entry
            ((e % e_y : ℕ) : ℤ) ((e / e_y : ℕ) : ℤ)
      else 0 := rfl
  rw [hphys, if_pos hmem]
  have hker : ∀ k l : ℕ, k < (filter_kernel r).rows →
      l < (filter_kernel r).cols →
      0 ≤ (filter_kernel r).entry (k : ℤ) (l : ℤ) :=
    fun k l _ _ => filter_kernel_entry_nonneg r (k : ℤ) (l : ℤ)
  have hdom : ∀ a b : ℤ, 0 ≤ a →
      a < ((reshape_col e_y e_x dv).rows : ℤ) → 0 ≤ b →
      b < ((reshape_col e_y e_x dv).cols : ℤ) →
      b.toNat * e_y + a.toNat < e_x * e_y := by
    intro a b ha0 ha hb0 hb
    have ha1 : a < (e_y : ℤ) := ha
    have hb1 : b < (e_x : ℤ) := hb
    have ha' : a.toNat < e_y := by omega
    have hb' : b.toNat < e_x := by omega
    exact col_major_lt a.toNat b.toNat e_y e_x hb' ha'
  have hN0 : 0 ≤ (filter (reshape_col e_y e_x dv) (filter_kernel r)).entry
      ((e % e_y : ℕ) : ℤ) ((e / e_y : ℕ) : ℤ) := by
    refine filter_entry_nonneg _ _ hker ?_ _ _
    intro a b ha0 ha hb0 hb
    exact (hdv _ (hdom a b ha0 ha hb0 hb)).1
  have hNW : (filter (reshape_col e_y e_x dv) (filter_kernel r)).entry
      ((e % e_y : ℕ) : ℤ) ((e / e_y : ℕ) : ℤ) ≤
      (filter (ones e_y e_x) (filter_kernel r)).entry
      ((e % e_y : ℕ) : ℤ) ((e / e_y : ℕ) : ℤ) := by
    refine filter_entry_le_ones _ _ hker ?_ _ _
    intro a b ha0 ha hb0 hb
    exact (hdv _ (hdom a b ha0 ha hb0 hb)).2
  have hW : 0 < (filter (ones e_y e_x) (filter_kernel r)).entry
      ((e % e_y : ℕ) : ℤ) ((e / e_y : ℕ) : ℤ) := by
    refine filter_weights_entry_pos e_y e_x r hr _ _ (Int.ofNat_nonneg _) ?_
      (Int.ofNat_nonneg _) ?_
    · exact_mod_cast Nat.mod_lt e (by omega)
    · exact_mod_cast (Nat.div_lt_iff_lt_mul (by omega)).mpr
        (by rw [Nat.mul_comm] at he ⊢; exact he)
  exact ⟨div_nonneg hN0 (le_of_lt hW), (div_le_one hW).mpr hNW⟩

/-- Witness for C3 on a 1×1 mesh, radius 1, constant raw field 1/2. -/
theorem step_physical_in_unit_interval_witness :
    (1 ≤ 1) ∧ ((1 : ℚ) ≤ 1) ∧
    (∀ e, e < 1 * 1 →
      0 ≤ (fun _ : ℕ => (1 / 2 : ℝ)) e ∧ (fun _ : ℕ => (1 / 2 : ℝ)) e ≤ 1) ∧
    (0 < 1 * 1) ∧
    (0 ≤ (fea_optimization_step (fun _ _ => fun _ => 0)
      { fea_init 1 1 (1 / 2) 3 1 (1 / 5) with
        design_variables := fun _ : ℕ => (1 / 2 : ℝ)
          }).design_variables_physical 0 ∧
    (fea_optimization_step (fun _ _ => fun _ => 0)
      { fea_init 1 1 (1 / 2) 3 1 (1 / 5) with
        design_variables := fun _ : ℕ => (1 / 2 : ℝ)
          }).design_variables_physical 0 ≤ 1) :=
  ⟨le_refl 1, le_refl 1, fun _ _ => ⟨by norm_num, by norm_num⟩, Nat.one_pos,
    step_physical_in_unit_interval 1 1 (1 / 2) 3 1 (1 / 5)
      (fun _ _ => fun _ => 0) (fun _ : ℕ => (1 / 2 : ℝ)) (le_refl 1)
      (le_refl 1) (le_refl 1) (fun _ _ => ⟨by norm_num, by norm_num⟩)
      0 Nat.one_pos⟩

/-- C6: in `fea_optimization_step`, every element's interpolated Young's
modulus is `E_min + ρ^p (E0 − E_min)` with `E0 = 1` and the strictly
positive floor `E_min = 1e-9` (the constants set by `fea_init`), where `ρ`
is the element's physical density and `p` the penalization exponent, and
every active element's stiffness sensitivity is
`−p (E0 − E_min) ρ^(p−1)`. -/
theorem simp_interpolation_spec (e_x e_y : ℕ) (vf p : ℝ) (r : ℚ) (mv : ℝ)
    (oracle : (ℤ → ℤ → ℝ) → (ℕ → ℝ) → (ℕ → ℝ)) (s : FEA_state)
    (hE0 : s.young_modulus = 1) (hEmin : s.young_modulus_min = 1e-9) :
    ((fea_init e_x e_y vf p r mv).young_modulus = 1 ∧
      (fea_init e_x e_y vf p r mv).young_modulus_min = 1e-9 ∧
      (0 : ℝ) < 1e-9) ∧
    (∀ e, (fea_optimization_step oracle s).young_moduli e =
      1e-9 + (fea_optimization_step oracle s).design_variables_physical e ^
        s.penalization * (1 - 1e-9)) ∧
    (∀ e, e ∈ s.active_elements →
      (fea_optimization_step oracle s).stiffness_derivative e =
        -s.penalization * (1 - 1e-9) *
          (fea_optimization_step oracle s).design_variables_physical e ^
            (s.penalization - 1)) := by
  refine ⟨⟨rfl, rfl, by norm_num⟩, fun e => ?_, fun e hmem => ?_⟩
  · show s.young_modulus_min +
        (fea_optimization_step oracle s).design_variables_physical e ^
          s.penalization * (s.young_modulus - s.young_modulus_min) = _
    rw [hE0, hEmin]
  · show (if e ∈ s.active_elements then
        -s.penalization * (s.young_modulus - s.young_modulus_min) *
          (fea_optimization_step oracle s).design_variables_physical e ^
            (s.penalization - 1)
      else s.stiffness_derivative e) = _
    rw [if_pos hmem, hE0, hEmin]

/-- Witness for C6 on the freshly initialized 1×1 state. -/
theorem simp_interpolation_spec_witness :
    ((fea_init 1 1 (1 / 2) 3 1 (1 / 5)).young_modulus = 1) ∧
    ((fea_init 1 1 (1 / 2) 3 1 (1 / 5)).young_modulus_min = 1e-9) ∧
    (∀ e, (fea_optimization_step (fun _ _ => fun _ => 0)
        (fea_init 1 1 (1 / 2) 3 1 (1 / 5))).young_moduli e =
      1e-9 + (fea_optimization_step (fun _ _ => fun _ => 0)
        (fea_init 1 1 (1 / 2) 3 1 (1 / 5))).design_variables_physical e ^
        (fea_init 1 1 (1 / 2) 3 1 (1 / 5)).penalization * (1 - 1e-9)) :=
  ⟨rfl, rfl,
    (simp_interpolation_spec 1 1 (1 / 2) 3 1 (1 / 5) (fun _ _ => fun _ => 0)
      (fea_init 1 1 (1 / 2) 3 1 (1 / 5)) rfl rfl).2.1⟩

/-- C10: `fea_solve` overwrites every element's modulus with the constant
`young_modulus` (which `fea_init` sets to 1) before assembling, so two
states that differ only in their design variables or physical densities
produce identical displacement vectors. -/
theorem fea_solve_uniform_modulus
    (oracle : (ℤ → ℤ → ℝ) → (ℕ → ℝ) → (ℕ → ℝ)) (s : FEA_state)
    (dv dvp : ℕ → ℝ) :
    (∀ e, (fea_solve oracle s).young_moduli e = s.young_modulus) ∧
    (∀ e_x e_y vf p r mv,
      (fea_init e_x e_y vf p (r : ℚ) mv).young_modulus = (1 : ℝ)) ∧
    ((fea_solve oracle { s with
        design_variables := dv
        design_variables_physical := dvp }).displacements =
      (fea_solve oracle s).displacements) :=
  ⟨fun _ => rfl, fun _ _ _ _ _ _ => rfl, rfl⟩

/-- C8: a non-`Success` outcome of the factorization or of the solve makes
the current solve fail immediately with an error carrying the specific
outcome kind; unknown outcome codes still map to the distinct generic kind
`"UNDEFINED"`; nothing on the numerical path is silently swallowed. -/
theorem solve_error_spec (fi si : ℤ)
    (oracle : (ℤ → ℤ → ℝ) → (ℕ → ℝ) → (ℕ → ℝ)) (s : FEA_state) :
    (fi ≠ 0 → solve_equilibrium_system fi si oracle s =
      Except.error ("Decomposition failed: " ++ to_string fi)) ∧
    (fi = 0 → si ≠ 0 → solve_equilibrium_system fi si oracle s =
      Except.error ("Solving failed: " ++ to_string si)) ∧
    (fi = 0 → si = 0 → solve_equilibrium_system fi si oracle s =
      Except.ok (solve_equilibrium oracle s)) ∧
    (to_string 0 = "Success" ∧ to_string 1 = "NumericalIssue" ∧
      to_string 2 = "NoConvergence" ∧ to_string 3 = "InvalidInput") ∧
    (∀ c : ℤ, c ≠ 0 → c ≠ 1 → c ≠ 2 → c ≠ 3 → to_string c = "UNDEFINED") := by
  refine ⟨fun h => ?_, fun h0 h => ?_, fun h0 hs => ?_,
    ⟨rfl, rfl, rfl, rfl⟩, fun c h0 h1 h2 h3 => ?_⟩
  · rw [solve_equilibrium_system, if_pos h]
  · rw [solve_equilibrium_system, if_neg (by simp [h0]), if_pos h]
  · rw [solve_equilibrium_system, if_neg (by simp [h0]), if_neg (by simp [hs])]
  · rw [to_string, if_neg h0, if_neg h1, if_neg h2, if_neg h3]

/-- Witness for C8: a failed factorization (`NumericalIssue`) on the 1×1
state, and the generic kind for the unknown outcome code 7. -/
theorem solve_error_spec_witness :
    ((1 : ℤ) ≠ 0) ∧
    (solve_equilibrium_system 1 0 (fun _ _ => fun _ => 0)
        (fea_init 1 1 (1 / 2) 3 1 (1 / 5)) =
      Except.error ("Decomposition failed: " ++ to_string 1)) ∧
    ((7 : ℤ) ≠ 0) ∧ ((7 : ℤ) ≠ 1) ∧ ((7 : ℤ) ≠ 2) ∧ ((7 : ℤ) ≠ 3) ∧
    to_string 7 = "UNDEFINED" :=
  ⟨by decide,
    (solve_error_spec 1 0 (fun _ _ => fun _ => 0)
      (fea_init 1 1 (1 / 2) 3 1 (1 / 5))).1 (by decide),
    by decide, by decide, by decide, by decide,
    (solve_error_spec 1 0 (fun _ _ => fun _ => 0)
      (fea_init 1 1 (1 / 2) 3 1 (1 / 5))).2.2.2.2 7
      (by decide) (by decide) (by decide) (by decide)⟩

/-- C9 counterexample: an empty (but successfully opened) source, whose
size 0 does not match the 20000-entry density field, does not leave the
field unchanged: entry 0 becomes 0 instead of its old value 1/2. -/
theorem load_densities_counterexample :
    some ([] : List ℝ) ≠ none ∧
    ([] : List ℝ).length ≠ 100 * 200 ∧
    load_densities (fun _ : ℕ => (1 / 2 : ℝ)) (some []) 0 ≠
      (fun _ : ℕ => (1 / 2 : ℝ)) 0 := by
  refine ⟨by simp, by norm_num, ?_⟩
  show (if (0 : ℕ) < 100 * 200 then ([] : List ℝ).getD 0 0
      else (1 / 2 : ℝ)) ≠ 1 / 2
  rw [if_pos (by norm_num)]
  norm_num

/-- C9 amended: an unopenable source is a non-fatal failure leaving every
entry unchanged, but an opened source always overwrites all `100 * 200`
entries — entry `i` receives the `i`-th successfully parsed value or `0`
once extraction fails — so a size mismatch does not leave the field
untouched. -/
theorem load_densities_amended (d : ℕ → ℝ) :
    (load_densities d none = d) ∧
    (∀ (vals : List ℝ) (i : ℕ), i < 100 * 200 →
      load_densities d (some vals) i = vals.getD i 0) ∧
    (∀ (vals : List ℝ) (i : ℕ), ¬i < 100 * 200 →
      load_densities d (some vals) i = d i) := by
  refine ⟨rfl, fun vals i hi => ?_, fun vals i hi => ?_⟩
  · show (if i < 100 * 200 then vals.getD i 0 else d i) = _
    rw [if_pos hi]
  · show (if i < 100 * 200 then vals.getD i 0 else d i) = _
    rw [if_neg hi]

/-- Witness for the amended C9 at a concrete field and 1-value source. -/
theorem load_densities_amended_witness :
    ((0 : ℕ) < 100 * 200) ∧
    load_densities (fun _ : ℕ => (1 / 2 : ℝ)) (some [(3 / 4 : ℝ)]) 0 =
      [(3 / 4 : ℝ)].getD 0 0 ∧
    (¬(100 * 200 : ℕ) < 100 * 200) ∧
    load_densities (fun _ : ℕ => (1 / 2 : ℝ)) (some [(3 / 4 : ℝ)])
        (100 * 200) = (fun _ : ℕ => (1 / 2 : ℝ)) (100 * 200) :=
  ⟨by norm_num,
    (load_densities_amended (fun _ : ℕ => (1 / 2 : ℝ))).2.1 [(3 / 4 : ℝ)] 0
      (by norm_num),
    by norm_num,
    (load_densities_amended (fun _ : ℕ => (1 / 2 : ℝ))).2.2 [(3 / 4 : ℝ)]
      (100 * 200) (by norm_num)⟩

/-- Summing a key-filtered triplet list built from an index range equals
the conditional sum over the range: kept contributions accumulate (sum),
dropped ones contribute nothing. -/
theorem sum_triplets (P : ℕ → Prop) [DecidablePred P] (A B : ℕ → ℤ)
    (V : ℕ → ℝ) (r c : ℤ) (n : ℕ) :
    (((((List.range n).filterMap fun q =>
          if P q then some (A q, B q, V q) else none)).filter
        fun t => t.1 = r ∧ t.2.1 = c).map fun t => t.2.2).sum =
      ∑ q ∈ Finset.range n, if P q ∧ A q = r ∧ B q = c then V q else 0 := by
  induction n with
  | zero => rfl
  | succ n ih =>
    rw [List.range_succ, List.filterMap_append, List.filter_append,
      List.map_append, List.sum_append, ih, Finset.sum_range_succ]
    by_cases hP : P n
    · by_cases hk : A n = r ∧ B n = c
      · simp [hP, hk]
      · rw [if_neg fun h => hk h.2]
        simp only [List.filterMap_cons, List.filterMap_nil, if_pos hP]
        rw [List.filter_cons]
        simp only [decide_eq_true_eq]
        rw [if_neg hk]
        simp
    · rw [if_neg fun h => hP h.1]
      simp [hP]

/-- C5: in each equilibrium assembly, the `(r, c)` entry of the compacted
free-DOF sparse matrix is the sum of exactly those of the
`num_elements * 36` scaled element stiffness contributions whose two
`all_to_free`-mapped indices are both different from `-1` and map to
`(r, c)`; duplicates sum, never overwrite.  Moreover the two global DOF
indices of every contribution of an initialized state are stored
canonically as `(max, min)` of the two connectivity entries. -/
theorem assembly_accumulation_spec :
    (∀ (s : FEA_state) (r c : ℤ), assembled_matrix s r c =
      ∑ q ∈ Finset.range (36 * s.num_elements),
        if (s.all_to_free.getD (s.stiffness_matrix_indices q).1 (-1) ≠ -1 ∧
            s.all_to_free.getD (s.stiffness_matrix_indices q).2 (-1) ≠ -1) ∧
            s.all_to_free.getD (s.stiffness_matrix_indices q).1 (-1) = r ∧
            s.all_to_free.getD (s.stiffness_matrix_indices q).2 (-1) = c then
          s.stiffness_matrix_values q
        else 0) ∧
    (∀ (e_x e_y : ℕ) (vf p : ℝ) (r : ℚ) (mv : ℝ) (q : ℕ),
      (fea_init e_x e_y vf p r mv).stiffness_matrix_indices q =
        (max (connectivity_matrix e_y (q / 36)
              (dof_connectivities_i.getD (q % 36) 0))
            (connectivity_matrix e_y (q / 36)
              (dof_connectivities_j.getD (q % 36) 0)),
          min (connectivity_matrix e_y (q / 36)
              (dof_connectivities_i.getD (q % 36) 0))
            (connectivity_matrix e_y (q / 36)
              (dof_connectivities_j.getD (q % 36) 0)))) := by
  refine ⟨fun s r c => ?_, fun _ _ _ _ _ _ _ => rfl⟩
  exact sum_triplets
    (fun q => s.all_to_free.getD (s.stiffness_matrix_indices q).1 (-1) ≠ -1 ∧
      s.all_to_free.getD (s.stiffness_matrix_indices q).2 (-1) ≠ -1)
    (fun q => s.all_to_free.getD (s.stiffness_matrix_indices q).1 (-1))
    (fun q => s.all_to_free.getD (s.stiffness_matrix_indices q).2 (-1))
    (fun q => s.stiffness_matrix_values q) r c (36 * s.num_elements)

/-- The `filtered_index_vector` loop on a strictly sorted discard list
whose entries all lie at or above the scan position filters the discard
list out of the scanned range. -/
theorem fivLoop_eq_filter (fuel : ℕ) :
    ∀ (discard : List ℕ) (i : ℕ), discard.Pairwise (· < ·) →
      (∀ x ∈ discard, i ≤ x) →
      fivLoop discard i fuel =
        (List.range' i fuel).filter fun j => decide (j ∉ discard) := by
  induction fuel with
  | zero =>
    intro discard i _ _
    cases discard <;> rfl
  | succ fuel ih =>
    intro discard i hsort hge
    match discard with
    | [] =>
      rw [fivLoop, ih [] (i + 1) List.Pairwise.nil (by simp),
        List.range'_succ, List.filter_cons]
      simp
    | d :: rest =>
      rw [List.pairwise_cons] at hsort
      by_cases hid : i = d
      · subst hid
        rw [fivLoop, if_pos rfl, List.range'_succ, List.filter_cons]
        rw [if_neg (by simp)]
        rw [ih rest (i + 1) hsort.2
          (fun x hx => Nat.succ_le_of_lt (hsort.1 x hx))]
        refine (List.filter_congr fun x hx => ?_).symm
        rw [List.mem_range'_1] at hx
        have hxd : x ≠ i := by omega
        simp [List.mem_cons, hxd]
      · have hdi : i < d :=
          Nat.lt_of_le_of_ne (hge d (List.mem_cons_self d rest)) hid
        rw [fivLoop, if_neg hid, List.range'_succ, List.filter_cons]
        have hnot : i ∉ d :: rest := by
          intro hmem
          rcases List.mem_cons.mp hmem with h | h
          · exact hid h
          · exact absurd (hsort.1 i h) (by omega)
        rw [if_pos (by simpa using hnot)]
        rw [ih (d :: rest) (i + 1) (List.pairwise_cons.mpr hsort) ?_]
        intro x hx
        rcases List.mem_cons.mp hx with h | h
        · omega
        · have := hsort.1 x h
          omega

/-- For `e_y ≥ 1`, the integer `LinSpaced` column built by `fea_init` takes
the multiplier path with multiplier `(2 e_y + 1) / e_y`. -/
theorem linSpaced_eval (e_y : ℕ) (hy : 1 ≤ e_y) :
    linSpaced (e_y + 1) 0 (2 * (e_y + 1) - 1) =
      (List.range (e_y + 1)).map fun i => i * ((2 * e_y + 1) / e_y) := by
  unfold linSpaced
  refine List.map_congr_left fun i _ => ?_
  rw [if_neg (by omega)]
  have h2 : (if e_y + 1 ≤ 1 then 1 else e_y + 1 - 1) = e_y := by
    rw [if_neg (by omega)]
    omega
  rw [h2]
  have h1 : 2 * (e_y + 1) - 1 - 0 = 2 * e_y + 1 := by omega
  rw [h1, Nat.zero_add]

/-- The `LinSpaced` multiplier is at least 2 for `e_y ≥ 1`. -/
theorem linSpaced_mult_ge_two (e_y : ℕ) (hy : 1 ≤ e_y) :
    2 ≤ (2 * e_y + 1) / e_y :=
  (Nat.le_div_iff_mul_le (by omega)).mpr (by omega)

/-- The largest `LinSpaced` value stays at or below `2 e_y + 1`. -/
theorem linSpaced_mult_le (e_y : ℕ) :
    e_y * ((2 * e_y + 1) / e_y) ≤ 2 * e_y + 1 := by
  rw [Nat.mul_comm]
  exact Nat.div_mul_le_self _ _

/-- The extra fixed DOF (`2 * node_indices(last, last) + 1`) is the last
DOF index. -/
theorem fixed_last_eq (e_x e_y : ℕ) :
    2 * node_index e_y e_y e_x + 1 = num_dofs e_x e_y - 1 := by
  unfold node_index num_dofs
  have h : (e_x + 1) * (e_y + 1) = e_x * (e_y + 1) + (e_y + 1) := by ring
  omega

/-- The count `num_dofs` is at least `4 e_y + 4` once there is at least one element
column. -/
theorem num_dofs_ge (e_x e_y : ℕ) (hx : 1 ≤ e_x) :
    4 * e_y + 4 ≤ num_dofs e_x e_y := by
  unfold num_dofs
  have h : 2 * (e_y + 1) ≤ (e_x + 1) * (e_y + 1) :=
    Nat.mul_le_mul_right _ (by omega)
  omega

/-- The fixed-DOF list is strictly sorted. -/
theorem fixed_dofs_sorted (e_x e_y : ℕ) (hx : 1 ≤ e_x) (hy : 1 ≤ e_y) :
    (fixed_dofs e_x e_y).Pairwise (· < ·) := by
  rw [fixed_dofs, linSpaced_eval e_y hy, List.pairwise_append]
  refine ⟨?_, List.pairwise_singleton _ _, ?_⟩
  · rw [List.pairwise_map]
    refine (List.pairwise_lt_range _).imp fun hab => ?_
    have hm := linSpaced_mult_ge_two e_y hy
    exact Nat.mul_lt_mul_of_lt_of_le hab (le_refl _) (by omega)
  · intro a ha b hb
    rw [List.mem_map] at ha
    obtain ⟨i, hi, rfl⟩ := ha
    rw [List.mem_range] at hi
    rw [List.mem_singleton] at hb
    subst hb
    have h1 : i * ((2 * e_y + 1) / e_y) ≤ e_y * ((2 * e_y + 1) / e_y) :=
      Nat.mul_le_mul_right _ (by omega)
    have h2 := linSpaced_mult_le e_y
    have h3 := fixed_last_eq e_x e_y
    have h4 := num_dofs_ge e_x e_y hx
    omega

/-- Every fixed DOF lies in `[0, num_dofs)`. -/
theorem fixed_dofs_bounded (e_x e_y : ℕ) (hx : 1 ≤ e_x) (hy : 1 ≤ e_y) :
    ∀ x ∈ fixed_dofs e_x e_y, x < num_dofs e_x e_y := by
  intro x hx'
  rw [fixed_dofs, linSpaced_eval e_y hy, List.mem_append] at hx'
  rcases hx' with h | h
  · rw [List.mem_map] at h
    obtain ⟨i, hi, rfl⟩ := h
    rw [List.mem_range] at hi
    have h1 : i * ((2 * e_y + 1) / e_y) ≤ e_y * ((2 * e_y + 1) / e_y) :=
      Nat.mul_le_mul_right _ (by omega)
    have h2 := linSpaced_mult_le e_y
    have h4 := num_dofs_ge e_x e_y hx
    omega
  · rw [List.mem_singleton] at h
    subst h
    have h3 := fixed_last_eq e_x e_y
    have h4 := num_dofs_ge e_x e_y hx
    omega

/-- The list `free_dofs` filters the fixed DOFs out of `[0, num_dofs)`. -/
theorem free_dofs_eq_filter (e_x e_y : ℕ) (hx : 1 ≤ e_x) (hy : 1 ≤ e_y) :
    free_dofs e_x e_y = (List.range (num_dofs e_x e_y)).filter
      fun j => decide (j ∉ fixed_dofs e_x e_y) := by
  rw [free_dofs, filtered_index_vector, List.range_eq_range']
  exact fivLoop_eq_filter _ _ 0 (fixed_dofs_sorted e_x e_y hx hy)
    fun x _ => Nat.zero_le x

/-- The fixed-DOF vector has `num_nodes_y + 1 = e_y + 2` entries. -/
theorem fixed_dofs_length (e_x e_y : ℕ) :
    (fixed_dofs e_x e_y).length = e_y + 2 := by
  simp [fixed_dofs, linSpaced]

/-- Filtering `[0, n)` by membership in a duplicate-free list bounded by
`n` keeps exactly as many indices as the list has. -/
theorem length_filter_mem (F : List ℕ) (n : ℕ) (hnodup : F.Nodup)
    (hbound : ∀ x ∈ F, x < n) :
    ((List.range n).filter fun x => decide (x ∈ F)).length = F.length := by
  have h1 : ((List.range n).filter fun x => decide (x ∈ F)).Nodup :=
    (List.nodup_range n).filter _
  have h2 : ((List.range n).filter fun x =>
      decide (x ∈ F)).toFinset = F.toFinset := by
    ext x
    simp only [List.mem_toFinset, List.mem_filter, List.mem_range,
      decide_eq_true_eq]
    exact ⟨fun h => h.2, fun h => ⟨hbound x h, h⟩⟩
  rw [← List.toFinset_card_of_nodup h1, h2, List.toFinset_card_of_nodup hnodup]

/-- Strict sortedness gives freedom from duplicates. -/
theorem pairwise_lt_nodup (F : List ℕ) (h : F.Pairwise (· < ·)) : F.Nodup :=
  h.imp fun hab => Nat.ne_of_lt hab

/-- The list `free_dofs` has `num_dofs - (e_y + 2)` entries. -/
theorem free_dofs_length (e_x e_y : ℕ) (hx : 1 ≤ e_x) (hy : 1 ≤ e_y) :
    (free_dofs e_x e_y).length = num_dofs e_x e_y - (e_y + 2) := by
  have hsplit := List.length_eq_length_filter_add
    (l := List.range (num_dofs e_x e_y))
    (fun x => decide (x ∈ fixed_dofs e_x e_y))
  have hnodup := pairwise_lt_nodup _ (fixed_dofs_sorted e_x e_y hx hy)
  have hfix := length_filter_mem (fixed_dofs e_x e_y) (num_dofs e_x e_y)
    hnodup (fixed_dofs_bounded e_x e_y hx hy)
  have hfree : free_dofs e_x e_y = (List.range (num_dofs e_x e_y)).filter
      fun x => !decide (x ∈ fixed_dofs e_x e_y) := by
    rw [free_dofs_eq_filter e_x e_y hx hy]
    exact List.filter_congr fun x _ => by simp
  rw [hfree]
  rw [List.length_range] at hsplit
  rw [fixed_dofs_length] at hfix
  omega

/-- The `all_to_free` loop lists, for each scanned DOF, either the sentinel
`-1` or the starting counter plus the number of free DOFs already passed. -/
theorem atfLoop_eq_map (free : List ℕ) (fuel : ℕ) :
    ∀ c i, atfLoop free c i fuel =
      (List.range' i fuel).map fun d =>
        if d ∈ free then
          ((c + (List.range' i (d - i)).countP
            (fun x => decide (x ∈ free)) : ℕ) : ℤ)
        else -1 := by
  induction fuel with
  | zero => intro c i; rfl
  | succ fuel ih =>
    intro c i
    rw [List.range'_succ, List.map_cons]
    by_cases hi : i ∈ free
    · rw [atfLoop, if_pos hi, ih (c + 1) (i + 1)]
      congr 1
      · rw [if_pos hi]
        simp
      · refine List.map_congr_left fun d hd => ?_
        rw [List.mem_range'_1] at hd
        by_cases hdf : d ∈ free
        · rw [if_pos hdf, if_pos hdf]
          have hsplit : d - i = (d - (i + 1)) + 1 := by omega
          rw [hsplit, List.range'_succ, List.countP_cons]
          have hb : decide (i ∈ free) = true := by simpa using hi
          rw [hb, if_pos rfl]
          push_cast
          ring
        · rw [if_neg hdf, if_neg hdf]
    · rw [atfLoop, if_neg hi, ih c (i + 1)]
      congr 1
      · rw [if_neg hi]
      · refine List.map_congr_left fun d hd => ?_
        rw [List.mem_range'_1] at hd
        by_cases hdf : d ∈ free
        · rw [if_pos hdf, if_pos hdf]
          have hsplit : d - i = (d - (i + 1)) + 1 := by omega
          rw [hsplit, List.range'_succ, List.countP_cons]
          simp [hi]
        · rw [if_neg hdf, if_neg hdf]

/-- Closed form of `all_to_free` at a valid DOF index: the number of free
DOFs strictly below it when it is free, the sentinel `-1` otherwise. -/
theorem atf_eq (e_x e_y d : ℕ) (hd : d < num_dofs e_x e_y) :
    (all_to_free e_x e_y).getD d (-1) =
      if d ∈ free_dofs e_x e_y then
        (((List.range d).countP fun x => decide (x ∈ free_dofs e_x e_y) :
          ℕ) : ℤ)
      else -1 := by
  rw [all_to_free, atfLoop_eq_map, List.getD_eq_getElem?_getD,
    ← List.range_eq_range', List.getElem?_map, List.getElem?_range hd]
  simp [← List.range_eq_range']

/-- In a strictly sorted list, the count of members below the `k`-th entry
is exactly `k`. -/
theorem sorted_count_below (F : List ℕ) (hF : F.Pairwise (· < ·))
    (k : ℕ) (hk : k < F.length) :
    (List.range (F.get ⟨k, hk⟩)).countP (fun x => decide (x ∈ F)) = k := by
  rw [List.countP_eq_length_filter]
  have hnodup := pairwise_lt_nodup F hF
  have htake_nodup : (F.take k).Nodup := (F.take_sublist k).nodup hnodup
  have hfil_nodup : ((List.range (F.get ⟨k, hk⟩)).filter
      fun x => decide (x ∈ F)).Nodup := (List.nodup_range _).filter _
  have hset : ((List.range (F.get ⟨k, hk⟩)).filter
      fun x => decide (x ∈ F)).toFinset = (F.take k).toFinset := by
    ext x
    simp only [List.mem_toFinset, List.mem_filter, List.mem_range,
      decide_eq_true_eq, List.mem_take_iff_getElem]
    constructor
    · rintro ⟨hlt, hmem⟩
      rw [List.mem_iff_get] at hmem
      obtain ⟨⟨j, hj⟩, rfl⟩ := hmem
      have hjk : j < k := by
        by_contra hjk
        push_neg at hjk
        rcases Nat.eq_or_lt_of_le hjk with heq | hlt2
        · subst heq
          exact lt_irrefl _ hlt
        · have := List.pairwise_iff_get.mp hF ⟨k, hk⟩ ⟨j, hj⟩
            (Fin.mk_lt_mk.mpr hlt2)
          omega
      exact ⟨j, by rw [lt_min_iff]; exact ⟨hjk, hj⟩,
        (List.get_eq_getElem F ⟨j, hj⟩).symm⟩
    · rintro ⟨j, hj, rfl⟩
      rw [lt_min_iff] at hj
      constructor
      · have := List.pairwise_iff_get.mp hF ⟨j, hj.2⟩ ⟨k, hk⟩
          (Fin.mk_lt_mk.mpr hj.1)
        simpa [List.get_eq_getElem] using this
      · exact List.getElem_mem _
  calc ((List.range (F.get ⟨k, hk⟩)).filter fun x =>
        decide (x ∈ F)).length
      = ((List.range (F.get ⟨k, hk⟩)).filter fun x =>
          decide (x ∈ F)).toFinset.card :=
        (List.toFinset_card_of_nodup hfil_nodup).symm
    _ = (F.take k).toFinset.card := by rw [hset]
    _ = (F.take k).length := List.toFinset_card_of_nodup htake_nodup
    _ = k := by
        rw [List.length_take]
        exact min_eq_left (Nat.le_of_lt hk)

/-- Free-DOF membership: below `num_dofs` and not fixed. -/
theorem free_dofs_mem (e_x e_y : ℕ) (hx : 1 ≤ e_x) (hy : 1 ≤ e_y)
    (d : ℕ) :
    d ∈ free_dofs e_x e_y ↔
      d < num_dofs e_x e_y ∧ d ∉ fixed_dofs e_x e_y := by
  rw [free_dofs_eq_filter e_x e_y hx hy]
  simp [List.mem_filter, List.mem_range]

/-- The free-DOF list is strictly sorted. -/
theorem free_dofs_sorted (e_x e_y : ℕ) (hx : 1 ≤ e_x) (hy : 1 ≤ e_y) :
    (free_dofs e_x e_y).Pairwise (· < ·) := by
  rw [free_dofs_eq_filter e_x e_y hx hy]
  exact (List.pairwise_lt_range _).filter _

/-- C4: after initialization of any valid mesh, `all_to_free(d) ≠ -1` iff
`d` is a free DOF; the `k`-th free DOF (in the ascending free list) maps to
the compacted index `k`; and the free and fixed DOFs partition
`[0, num_dofs)`: their union is the full range, their intersection empty. -/
theorem dof_partition_spec (e_x e_y : ℕ) (vf p : ℝ) (r : ℚ) (mv : ℝ)
    (hx : 1 ≤ e_x) (hy : 1 ≤ e_y) :
    (∀ d, d < num_dofs e_x e_y →
      ((fea_init e_x e_y vf p r mv).all_to_free.getD d (-1) ≠ -1 ↔
        d ∈ (fea_init e_x e_y vf p r mv).free_dofs)) ∧
    (∀ k (hk : k < (fea_init e_x e_y vf p r mv).free_dofs.length),
      (fea_init e_x e_y vf p r mv).all_to_free.getD
        ((fea_init e_x e_y vf p r mv).free_dofs.get ⟨k, hk⟩) (-1) =
        (k : ℤ)) ∧
    (∀ d, (d ∈ (fea_init e_x e_y vf p r mv).free_dofs ∨
        d ∈ fixed_dofs e_x e_y) ↔ d < num_dofs e_x e_y) ∧
    (∀ d, ¬(d ∈ (fea_init e_x e_y vf p r mv).free_dofs ∧
        d ∈ fixed_dofs e_x e_y)) := by
  have hfree_eq : (fea_init e_x e_y vf p r mv).free_dofs =
      free_dofs e_x e_y := rfl
  have hatf_eq : (fea_init e_x e_y vf p r mv).all_to_free =
      all_to_free e_x e_y := rfl
  refine ⟨fun d hd => ?_, fun k hk => ?_, fun d => ?_, fun d => ?_⟩
  · rw [hfree_eq, hatf_eq, atf_eq e_x e_y d hd]
    by_cases hmem : d ∈ free_dofs e_x e_y
    · rw [if_pos hmem]
      refine ⟨fun _ => hmem, fun _ => ?_⟩
      have hcast : (0 : ℤ) ≤ (((List.range d).countP fun x =>
          decide (x ∈ free_dofs e_x e_y) : ℕ) : ℤ) := Int.natCast_nonneg _
      omega
    · rw [if_neg hmem]
      exact ⟨fun h => absurd rfl h, fun h => absurd h hmem⟩
  · have hk' : k < (free_dofs e_x e_y).length := hk
    have hmem : (free_dofs e_x e_y).get ⟨k, hk'⟩ ∈ free_dofs e_x e_y :=
      List.get_mem _ _ _
    have hd : (free_dofs e_x e_y).get ⟨k, hk'⟩ < num_dofs e_x e_y :=
      ((free_dofs_mem e_x e_y hx hy _).mp hmem).1
    show (all_to_free e_x e_y).getD
      ((free_dofs e_x e_y).get ⟨k, hk'⟩) (-1) = (k : ℤ)
    rw [atf_eq e_x e_y _ hd, if_pos hmem,
      sorted_count_below (free_dofs e_x e_y)
        (free_dofs_sorted e_x e_y hx hy) k hk']
  · rw [hfree_eq]
    constructor
    · rintro (h | h)
      · exact ((free_dofs_mem e_x e_y hx hy d).mp h).1
      · exact fixed_dofs_bounded e_x e_y hx hy d h
    · intro hd
      by_cases hfix : d ∈ fixed_dofs e_x e_y
      · exact Or.inr hfix
      · exact Or.inl ((free_dofs_mem e_x e_y hx hy d).mpr ⟨hd, hfix⟩)
  · rw [hfree_eq]
    rintro ⟨hf, hfix⟩
    exact ((free_dofs_mem e_x e_y hx hy d).mp hf).2 hfix

/-- Witness for C4 on the 2×1 mesh. -/
theorem dof_partition_spec_witness :
    (1 ≤ 2) ∧ (1 ≤ 1) ∧
    (∀ d, d < num_dofs 2 1 →
      ((fea_init 2 1 (1 / 2) 3 (3 / 2) (1 / 5)).all_to_free.getD d (-1) ≠
          -1 ↔
        d ∈ (fea_init 2 1 (1 / 2) 3 (3 / 2) (1 / 5)).free_dofs)) :=
  ⟨by decide, by decide,
    (dof_partition_spec 2 1 (1 / 2) 3 (3 / 2) (1 / 5)
      (by decide) (by decide)).1⟩

/-- For `e_y ≥ 2` the `LinSpaced` multiplier is exactly 2. -/
theorem linSpaced_mult_eq_two (e_y : ℕ) (hy : 2 ≤ e_y) :
    (2 * e_y + 1) / e_y = 2 := by
  have h1 := linSpaced_mult_ge_two e_y (by omega)
  have h2 : (2 * e_y + 1) / e_y < 3 :=
    (Nat.div_lt_iff_lt_mul (by omega)).mpr (by omega)
  omega

/-- C1 counterexample: at `nx = 2, ny = 1` the initialized state has 9 free
DOFs, not `num_dofs - (ny + 1) = 10` — the code constrains `ny + 2` DOFs,
not `ny + 1`. -/
theorem dirichlet_count_counterexample :
    ¬((fea_init 2 1 (1 / 2) 3 (3 / 2) (1 / 5)).free_dofs.length =
      num_dofs 2 1 - (1 + 1)) := by decide

/-- C1 amended: after initialization the Dirichlet-fixed set consists of
`ny + 1` DOFs taken from the first node column by Eigen's integer
`LinSpaced` — which are the x-DOFs `0, 2, …, 2 ny` of the left-edge nodes
when `ny ≥ 2`, and `{0, 3}` when `ny = 1` — plus the y-DOF of the last
node, for `ny + 2` constrained DOFs in total; `free_dofs` hence has
`num_dofs - (ny + 2)` entries. -/
theorem dirichlet_count_amended (e_x e_y : ℕ) (vf p : ℝ) (r : ℚ) (mv : ℝ)
    (hx : 1 ≤ e_x) (hy : 1 ≤ e_y) :
    (fixed_dofs e_x e_y).length = e_y + 2 ∧
    (fea_init e_x e_y vf p r mv).free_dofs.length =
      num_dofs e_x e_y - (e_y + 2) ∧
    (2 ≤ e_y → fixed_dofs e_x e_y =
      ((List.range (e_y + 1)).map fun i => 2 * i) ++
        [num_dofs e_x e_y - 1]) ∧
    (e_y = 1 → fixed_dofs e_x e_y = [0, 3] ++ [num_dofs e_x 1 - 1]) := by
  refine ⟨fixed_dofs_length e_x e_y, free_dofs_length e_x e_y hx hy,
    fun h2 => ?_, fun h1 => ?_⟩
  · rw [fixed_dofs, linSpaced_eval e_y hy]
    congr 1
    · refine List.map_congr_left fun i _ => ?_
      rw [linSpaced_mult_eq_two e_y h2, Nat.mul_comm]
    · rw [fixed_last_eq e_x e_y]
  · subst h1
    have hl : linSpaced (1 + 1) 0 (2 * (1 + 1) - 1) = [0, 3] := by decide
    rw [fixed_dofs, hl, fixed_last_eq e_x 1]

/-- Witness for the amended C1 on the 2×2 mesh. -/
theorem dirichlet_count_amended_witness :
    (1 ≤ 2) ∧
    (fixed_dofs 2 2).length = 2 + 2 ∧
    (fea_init 2 2 (1 / 2) 3 (3 / 2) (1 / 5)).free_dofs.length =
      num_dofs 2 2 - (2 + 2) :=
  ⟨by decide,
    (dirichlet_count_amended 2 2 (1 / 2) 3 (3 / 2) (1 / 5)
      (by decide) (by decide)).1,
    (dirichlet_count_amended 2 2 (1 / 2) 3 (3 / 2) (1 / 5)
      (by decide) (by decide)).2.1⟩

set_option maxHeartbeats 3200000 in
/-- The quadratic form of the unit-modulus element stiffness matrix is
positive semi-definite: it is a sum of five weighted squares (exact LDLT
factorization of the 8×8 template). -/
theorem element_quadform_nonneg (u : ℕ → ℝ) :
    0 ≤ ∑ j ∈ Finset.range 8,
      (∑ k ∈ Finset.range 8,
        u k * ((element_stiffness_matrix_q k j : ℚ) : ℝ)) * u j := by
  have h00 : element_stiffness_matrix_q 0 0 = 45 / 91 := by
    norm_num [element_stiffness_matrix_q, element_stiffness_matrix_values_q,
      poisson_q, lower_tri_index, Finset.sum_range_succ,
      element_stiffness_matrix_values_1, element_stiffness_matrix_values_2]
  have h01 : element_stiffness_matrix_q 0 1 = 5 / 28 := by
    norm_num [element_stiffness_matrix_q, element_stiffness_matrix_values_q,
      poisson_q, lower_tri_index, Finset.sum_range_succ,
      element_stiffness_matrix_values_1, element_stiffness_matrix_values_2]
  have h02 : element_stiffness_matrix_q 0 2 = -(55 / 182) := by
    norm_num [element_stiffness_matrix_q, element_stiffness_matrix_values_q,
      poisson_q, lower_tri_index, Finset.sum_range_succ,
      element_stiffness_matrix_values_1, element_stiffness_matrix_values_2]
  have h03 : element_stiffness_matrix_q 0 3 = -(5 / 364) := by
    norm_num [element_stiffness_matrix_q, element_stiffness_matrix_values_q,
      poisson_q, lower_tri_index, Finset.sum_range_succ,
      element_stiffness_matrix_values_1, element_stiffness_matrix_values_2]
  have h04 : element_stiffness_matrix_q 0 4 = -(45 / 182) := by
    norm_num [element_stiffness_matrix_q, element_stiffness_matrix_values_q,
      poisson_q, lower_tri_index, Finset.sum_range_succ,
      element_stiffness_matrix_values_1, element_stiffness_matrix_values_2]
  have h05 : element_stiffness_matrix_q 0 5 = -(5 / 28) := by
    norm_num [element_stiffness_matrix_q, element_stiffness_matrix_values_q,
      poisson_q, lower_tri_index, Finset.sum_range_succ,
      element_stiffness_matrix_values_1, element_stiffness_matrix_values_2]
  have h06 : element_stiffness_matrix_q 0 6 = 5 / 91 := by
    norm_num [element_stiffness_matrix_q, element_stiffness_matrix_values_q,
      poisson_q, lower_tri_index, Finset.sum_range_succ,
      element_stiffness_matrix_values_1, element_stiffness_matrix_values_2]
  have h07 : element_stiffness_matrix_q 0 7 = 5 / 364 := by
    norm_num [element_stiffness_matrix_q, element_stiffness_matrix_values_q,
      poisson_q, lower_tri_index, Finset.sum_range_succ,
      element_stiffness_matrix_values_1, element_stiffness_matrix_values_2]
  have h10 : element_stiffness_matrix_q 1 0 = 5 / 28 := by
    norm_num [element_stiffness_matrix_q, element_stiffness_matrix_values_q,
      poisson_q, lower_tri_index, Finset.sum_range_succ,
      element_stiffness_matrix_values_1, element_stiffness_matrix_values_2]
  have h11 : element_stiffness_matrix_q 1 1 = 45 / 91 := by
    norm_num [element_stiffness_matrix_q, element_stiffness_matrix_values_q,
      poisson_q, lower_tri_index, Finset.sum_range_succ,
      element_stiffness_matrix_values_1, element_stiffness_matrix_values_2]
  have h12 : element_stiffness_matrix_q 1 2 = 5 / 364 := by
    norm_num [element_stiffness_matrix_q, element_stiffness_matrix_values_q,
      poisson_q, lower_tri_index, Finset.sum_range_succ,
      element_stiffness_matrix_values_1, element_stiffness_matrix_values_2]
  have h13 : element_stiffness_matrix_q 1 3 = 5 / 91 := by
    norm_num [element_stiffness_matrix_q, element_stiffness_matrix_values_q,
      poisson_q, lower_tri_index, Finset.sum_range_succ,
      element_stiffness_matrix_values_1, element_stiffness_matrix_values_2]
  have h14 : element_stiffness_matrix_q 1 4 = -(5 / 28) := by
    norm_num [element_stiffness_matrix_q, element_stiffness_matrix_values_q,
      poisson_q, lower_tri_index, Finset.sum_range_succ,
      element_stiffness_matrix_values_1, element_stiffness_matrix_values_2]
  have h15 : element_stiffness_matrix_q 1 5 = -(45 / 182) := by
    norm_num [element_stiffness_matrix_q, element_stiffness_matrix_values_q,
      poisson_q, lower_tri_index, Finset.sum_range_succ,
      element_stiffness_matrix_values_1, element_stiffness_matrix_values_2]
  have h16 : element_stiffness_matrix_q 1 6 = -(5 / 364) := by
    norm_num [element_stiffness_matrix_q, element_stiffness_matrix_values_q,
      poisson_q, lower_tri_index, Finset.sum_range_succ,
      element_stiffness_matrix_values_1, element_stiffness_matrix_values_2]
  have h17 : element_stiffness_matrix_q 1 7 = -(55 / 182) := by
    norm_num [element_stiffness_matrix_q, element_stiffness_matrix_values_q,
      poisson_q, lower_tri_index, Finset.sum_range_succ,
      element_stiffness_matrix_values_1, element_stiffness_matrix_values_2]
  have h20 : element_stiffness_matrix_q 2 0 = -(55 / 182) := by
    norm_num [element_stiffness_matrix_q, element_stiffness_matrix_values_q,
      poisson_q, lower_tri_index, Finset.sum_range_succ,
      element_stiffness_matrix_values_1, element_stiffness_matrix_values_2]
  have h21 : element_stiffness_matrix_q 2 1 = 5 / 364 := by
    norm_num [element_stiffness_matrix_q, element_stiffness_matrix_values_q,
      poisson_q, lower_tri_index, Finset.sum_range_succ,
      element_stiffness_matrix_values_1, element_stiffness_matrix_values_2]
  have h22 : element_stiffness_matrix_q 2 2 = 45 / 91 := by
    norm_num [element_stiffness_matrix_q, element_stiffness_matrix_values_q,
      poisson_q, lower_tri_index, Finset.sum_range_succ,
      element_stiffness_matrix_values_1, element_stiffness_matrix_values_2]
  have h23 : element_stiffness_matrix_q 2 3 = -(5 / 28) := by
    norm_num [element_stiffness_matrix_q, element_stiffness_matrix_values_q,
      poisson_q, lower_tri_index, Finset.sum_range_succ,
      element_stiffness_matrix_values_1, element_stiffness_matrix_values_2]
  have h24 : element_stiffness_matrix_q 2 4 = 5 / 91 := by
    norm_num [element_stiffness_matrix_q, element_stiffness_matrix_values_q,
      poisson_q, lower_tri_index, Finset.sum_range_succ,
      element_stiffness_matrix_values_1, element_stiffness_matrix_values_2]
  have h25 : element_stiffness_matrix_q 2 5 = -(5 / 364) := by
    norm_num [element_stiffness_matrix_q, element_stiffness_matrix_values_q,
      poisson_q, lower_tri_index, Finset.sum_range_succ,
      element_stiffness_matrix_values_1, element_stiffness_matrix_values_2]
  have h26 : element_stiffness_matrix_q 2 6 = -(45 / 182) := by
    norm_num [element_stiffness_matrix_q, element_stiffness_matrix_values_q,
      poisson_q, lower_tri_index, Finset.sum_range_succ,
      element_stiffness_matrix_values_1, element_stiffness_matrix_values_2]
  have h27 : element_stiffness_matrix_q 2 7 = 5 / 28 := by
    norm_num [element_stiffness_matrix_q, element_stiffness_matrix_values_q,
      poisson_q, lower_tri_index, Finset.sum_range_succ,
      element_stiffness_matrix_values_1, element_stiffness_matrix_values_2]
  have h30 : element_stiffness_matrix_q 3 0 = -(5 / 364) := by
    norm_num [element_stiffness_matrix_q, element_stiffness_matrix_values_q,
      poisson_q, lower_tri_index, Finset.sum_range_succ,
      element_stiffness_matrix_values_1, element_stiffness_matrix_values_2]
  have h31 : element_stiffness_matrix_q 3 1 = 5 / 91 := by
    norm_num [element_stiffness_matrix_q, element_stiffness_matrix_values_q,
      poisson_q, lower_tri_index, Finset.sum_range_succ,
      element_stiffness_matrix_values_1, element_stiffness_matrix_values_2]
  have h32 : element_stiffness_matrix_q 3 2 = -(5 / 28) := by
    norm_num [element_stiffness_matrix_q, element_stiffness_matrix_values_q,
      poisson_q, lower_tri_index, Finset.sum_range_succ,
      element_stiffness_matrix_values_1, element_stiffness_matrix_values_2]
  have h33 : element_stiffness_matrix_q 3 3 = 45 / 91 := by
    norm_num [element_stiffness_matrix_q, element_stiffness_matrix_values_q,
      poisson_q, lower_tri_index, Finset.sum_range_succ,
      element_stiffness_matrix_values_1, element_stiffness_matrix_values_2]
  have h34 : element_stiffness_matrix_q 3 4 = 5 / 364 := by
    norm_num [element_stiffness_matrix_q, element_stiffness_matrix_values_q,
      poisson_q, lower_tri_index, Finset.sum_range_succ,
      element_stiffness_matrix_values_1, element_stiffness_matrix_values_2]
  have h35 : element_stiffness_matrix_q 3 5 = -(55 / 182) := by
    norm_num [element_stiffness_matrix_q, element_stiffness_matrix_values_q,
      poisson_q, lower_tri_index, Finset.sum_range_succ,
      element_stiffness_matrix_values_1, element_stiffness_matrix_values_2]
  have h36 : element_stiffness_matrix_q 3 6 = 5 / 28 := by
    norm_num [element_stiffness_matrix_q, element_stiffness_matrix_values_q,
      poisson_q, lower_tri_index, Finset.sum_range_succ,
      element_stiffness_matrix_values_1, element_stiffness_matrix_values_2]
  have h37 : element_stiffness_matrix_q 3 7 = -(45 / 182) := by
    norm_num [element_stiffness_matrix_q, element_stiffness_matrix_values_q,
      poisson_q, lower_tri_index, Finset.sum_range_succ,
      element_stiffness_matrix_values_1, element_stiffness_matrix_values_2]
  have h40 : element_stiffness_matrix_q 4 0 = -(45 / 182) := by
    norm_num [element_stiffness_matrix_q, element_stiffness_matrix_values_q,
      poisson_q, lower_tri_index, Finset.sum_range_succ,
      element_stiffness_matrix_values_1, element_stiffness_matrix_values_2]
  have h41 : element_stiffness_matrix_q 4 1 = -(5 / 28) := by
    norm_num [element_stiffness_matrix_q, element_stiffness_matrix_values_q,
      poisson_q, lower_tri_index, Finset.sum_range_succ,
      element_stiffness_matrix_values_1, element_stiffness_matrix_values_2]
  have h42 : element_stiffness_matrix_q 4 2 = 5 / 91 := by
    norm_num [element_stiffness_matrix_q, element_stiffness_matrix_values_q,
      poisson_q, lower_tri_index, Finset.sum_range_succ,
      element_stiffness_matrix_values_1, element_stiffness_matrix_values_2]
  have h43 : element_stiffness_matrix_q 4 3 = 5 / 364 := by
    norm_num [element_stiffness_matrix_q, element_stiffness_matrix_values_q,
      poisson_q, lower_tri_index, Finset.sum_range_succ,
      element_stiffness_matrix_values_1, element_stiffness_matrix_values_2]
  have h44 : element_stiffness_matrix_q 4 4 = 45 / 91 := by
    norm_num [element_stiffness_matrix_q, element_stiffness_matrix_values_q,
      poisson_q, lower_tri_index, Finset.sum_range_succ,
      element_stiffness_matrix_values_1, element_stiffness_matrix_values_2]
  have h45 : element_stiffness_matrix_q 4 5 = 5 / 28 := by
    norm_num [element_stiffness_matrix_q, element_stiffness_matrix_values_q,
      poisson_q, lower_tri_index, Finset.sum_range_succ,
      element_stiffness_matrix_values_1, element_stiffness_matrix_values_2]
  have h46 : element_stiffness_matrix_q 4 6 = -(55 / 182) := by
    norm_num [element_stiffness_matrix_q, element_stiffness_matrix_values_q,
      poisson_q, lower_tri_index, Finset.sum_range_succ,
      element_stiffness_matrix_values_1, element_stiffness_matrix_values_2]
  have h47 : element_stiffness_matrix_q 4 7 = -(5 / 364) := by
    norm_num [element_stiffness_matrix_q, element_stiffness_matrix_values_q,
      poisson_q, lower_tri_index, Finset.sum_range_succ,
      element_stiffness_matrix_values_1, element_stiffness_matrix_values_2]
  have h50 : element_stiffness_matrix_q 5 0 = -(5 / 28) := by
    norm_num [element_stiffness_matrix_q, element_stiffness_matrix_values_q,
      poisson_q, lower_tri_index, Finset.sum_range_succ,
      element_stiffness_matrix_values_1, element_stiffness_matrix_values_2]
  have h51 : element_stiffness_matrix_q 5 1 = -(45 / 182) := by
    norm_num [element_stiffness_matrix_q, element_stiffness_matrix_values_q,
      poisson_q, lower_tri_index, Finset.sum_range_succ,
      element_stiffness_matrix_values_1, element_stiffness_matrix_values_2]
  have h52 : element_stiffness_matrix_q 5 2 = -(5 / 364) := by
    norm_num [element_stiffness_matrix_q, element_stiffness_matrix_values_q,
      poisson_q, lower_tri_index, Finset.sum_range_succ,
      element_stiffness_matrix_values_1, element_stiffness_matrix_values_2]
  have h53 : element_stiffness_matrix_q 5 3 = -(55 / 182) := by
    norm_num [element_stiffness_matrix_q, element_stiffness_matrix_values_q,
      poisson_q, lower_tri_index, Finset.sum_range_succ,
      element_stiffness_matrix_values_1, element_stiffness_matrix_values_2]
  have h54 : element_stiffness_matrix_q 5 4 = 5 / 28 := by
    norm_num [element_stiffness_matrix_q, element_stiffness_matrix_values_q,
      poisson_q, lower_tri_index, Finset.sum_range_succ,
      element_stiffness_matrix_values_1, element_stiffness_matrix_values_2]
  have h55 : element_stiffness_matrix_q 5 5 = 45 / 91 := by
    norm_num [element_stiffness_matrix_q, element_stiffness_matrix_values_q,
      poisson_q, lower_tri_index, Finset.sum_range_succ,
      element_stiffness_matrix_values_1, element_stiffness_matrix_values_2]
  have h56 : element_stiffness_matrix_q 5 6 = 5 / 364 := by
    norm_num [element_stiffness_matrix_q, element_stiffness_matrix_values_q,
      poisson_q, lower_tri_index, Finset.sum_range_succ,
      element_stiffness_matrix_values_1, element_stiffness_matrix_values_2]
  have h57 : element_stiffness_matrix_q 5 7 = 5 / 91 := by
    norm_num [element_stiffness_matrix_q, element_stiffness_matrix_values_q,
      poisson_q, lower_tri_index, Finset.sum_range_succ,
      element_stiffness_matrix_values_1, element_stiffness_matrix_values_2]
  have h60 : element_stiffness_matrix_q 6 0 = 5 / 91 := by
    norm_num [element_stiffness_matrix_q, element_stiffness_matrix_values_q,
      poisson_q, lower_tri_index, Finset.sum_range_succ,
      element_stiffness_matrix_values_1, element_stiffness_matrix_values_2]
  have h61 : element_stiffness_matrix_q 6 1 = -(5 / 364) := by
    norm_num [element_stiffness_matrix_q, element_stiffness_matrix_values_q,
      poisson_q, lower_tri_index, Finset.sum_range_succ,
      element_stiffness_matrix_values_1, element_stiffness_matrix_values_2]
  have h62 : element_stiffness_matrix_q 6 2 = -(45 / 182) := by
    norm_num [element_stiffness_matrix_q, element_stiffness_matrix_values_q,
      poisson_q, lower_tri_index, Finset.sum_range_succ,
      element_stiffness_matrix_values_1, element_stiffness_matrix_values_2]
  have h63 : element_stiffness_matrix_q 6 3 = 5 / 28 := by
    norm_num [element_stiffness_matrix_q, element_stiffness_matrix_values_q,
      poisson_q, lower_tri_index, Finset.sum_range_succ,
      element_stiffness_matrix_values_1, element_stiffness_matrix_values_2]
  have h64 : element_stiffness_matrix_q 6 4 = -(55 / 182) := by
    norm_num [element_stiffness_matrix_q, element_stiffness_matrix_values_q,
      poisson_q, lower_tri_index, Finset.sum_range_succ,
      element_stiffness_matrix_values_1, element_stiffness_matrix_values_2]
  have h65 : element_stiffness_matrix_q 6 5 = 5 / 364 := by
    norm_num [element_stiffness_matrix_q, element_stiffness_matrix_values_q,
      poisson_q, lower_tri_index, Finset.sum_range_succ,
      element_stiffness_matrix_values_1, element_stiffness_matrix_values_2]
  have h66 : element_stiffness_matrix_q 6 6 = 45 / 91 := by
    norm_num [element_stiffness_matrix_q, element_stiffness_matrix_values_q,
      poisson_q, lower_tri_index, Finset.sum_range_succ,
      element_stiffness_matrix_values_1, element_stiffness_matrix_values_2]
  have h67 : element_stiffness_matrix_q 6 7 = -(5 / 28) := by
    norm_num [element_stiffness_matrix_q, element_stiffness_matrix_values_q,
      poisson_q, lower_tri_index, Finset.sum_range_succ,
      element_stiffness_matrix_values_1, element_stiffness_matrix_values_2]
  have h70 : element_stiffness_matrix_q 7 0 = 5 / 364 := by
    norm_num [element_stiffness_matrix_q, element_stiffness_matrix_values_q,
      poisson_q, lower_tri_index, Finset.sum_range_succ,
      element_stiffness_matrix_values_1, element_stiffness_matrix_values_2]
  have h71 : element_stiffness_matrix_q 7 1 = -(55 / 182) := by
    norm_num [element_stiffness_matrix_q, element_stiffness_matrix_values_q,
      poisson_q, lower_tri_index, Finset.sum_range_succ,
      element_stiffness_matrix_values_1, element_stiffness_matrix_values_2]
  have h72 : element_stiffness_matrix_q 7 2 = 5 / 28 := by
    norm_num [element_stiffness_matrix_q, element_stiffness_matrix_values_q,
      poisson_q, lower_tri_index, Finset.sum_range_succ,
      element_stiffness_matrix_values_1, element_stiffness_matrix_values_2]
  have h73 : element_stiffness_matrix_q 7 3 = -(45 / 182) := by
    norm_num [element_stiffness_matrix_q, element_stiffness_matrix_values_q,
      poisson_q, lower_tri_index, Finset.sum_range_succ,
      element_stiffness_matrix_values_1, element_stiffness_matrix_values_2]
  have h74 : element_stiffness_matrix_q 7 4 = -(5 / 364) := by
    norm_num [element_stiffness_matrix_q, element_stiffness_matrix_values_q,
      poisson_q, lower_tri_index, Finset.sum_range_succ,
      element_stiffness_matrix_values_1, element_stiffness_matrix_values_2]
  have h75 : element_stiffness_matrix_q 7 5 = 5 / 91 := by
    norm_num [element_stiffness_matrix_q, element_stiffness_matrix_values_q,
      poisson_q, lower_tri_index, Finset.sum_range_succ,
      element_stiffness_matrix_values_1, element_stiffness_matrix_values_2]
  have h76 : element_stiffness_matrix_q 7 6 = -(5 / 28) := by
    norm_num [element_stiffness_matrix_q, element_stiffness_matrix_values_q,
      poisson_q, lower_tri_index, Finset.sum_range_succ,
      element_stiffness_matrix_values_1, element_stiffness_matrix_values_2]
  have h77 : element_stiffness_matrix_q 7 7 = 45 / 91 := by
    norm_num [element_stiffness_matrix_q, element_stiffness_matrix_values_q,
      poisson_q, lower_tri_index, Finset.sum_range_succ,
      element_stiffness_matrix_values_1, element_stiffness_matrix_values_2]
  have hexp : (∑ j ∈ Finset.range 8,
      (∑ k ∈ Finset.range 8,
        u k * ((element_stiffness_matrix_q k j : ℚ) : ℝ)) * u j) =
      (5 / 13104) * (36 * u 0 + 13 * u 1 - 22 * u 2 - u 3 - 18 * u 4 - 13 * u 5 + 4 * u 6 + u 7) ^ 2 +
        (5 / 14768208) * (1127 * u 1 + 322 * u 2 + 157 * u 3 - 234 * u 4 - 479 * u 5 - 88 * u 6 - 805 * u 7) ^ 2 +
        (1 / 4459) * (35 * u 2 - 26 * u 3 - 9 * u 4 - 9 * u 5 - 26 * u 6 + 35 * u 7) ^ 2 +
        (9 / 1992536) * (272 * u 3 - 27 * u 4 - 272 * u 5 + 27 * u 6) ^ 2 +
        (45 / 136) * (u 4 - u 6) ^ 2 := by
    simp only [Finset.sum_range_succ, Finset.sum_range_zero,
      h00, h01, h02, h03, h04, h05, h06, h07, h10, h11, h12, h13, h14, h15, h16, h17, h20, h21, h22, h23, h24, h25, h26, h27, h30, h31, h32, h33, h34, h35, h36, h37, h40, h41, h42, h43, h44, h45, h46, h47, h50, h51, h52, h53, h54, h55, h56, h57, h60, h61, h62, h63, h64, h65, h66, h67, h70, h71, h72, h73, h74, h75, h76, h77]
    push_cast
    ring
  rw [hexp]
  positivity

/-- C7: for the single-load cantilever setup produced by `fea_init` (any
valid mesh, volume fraction in `[0, 1]`, radius ≥ 1, penalization ≥ 1) and
any solver outcome, the unfiltered compliance sensitivity
`stiffness_derivative(e) · (u_eᵀ K0 u_e)` computed by
`fea_optimization_step` is nonpositive at every active element. -/
theorem compliance_derivative_nonpos (e_x e_y : ℕ) (vf p : ℝ) (r : ℚ)
    (mv : ℝ) (oracle : (ℤ → ℤ → ℝ) → (ℕ → ℝ) → (ℕ → ℝ))
    (hx : 1 ≤ e_x) (hy : 1 ≤ e_y) (hr : 1 ≤ r) (hp : 1 ≤ p)
    (hvf0 : 0 ≤ vf) (hvf1 : vf ≤ 1) (e : ℕ) (he : e < e_x * e_y) :
    compliance_derivative
      (fea_optimization_step oracle (fea_init e_x e_y vf p r mv)) e ≤ 0 := by
  have hmem : e ∈ (fea_init e_x e_y vf p r mv).active_elements := by
    show e ∈ filtered_index_vector (e_x * e_y) ([] ++ [])
    rw [List.nil_append, filtered_index_vector_nil, List.mem_range]
    exact he
  have hdvval : (fea_init e_x e_y vf p r mv).design_variables = fun e' =>
      if e' ∈ ([] : List ℕ) then 1
      else if e' ∈ filtered_index_vector (e_x * e_y) ([] ++ []) then
        (vf * (((e_x * e_y : ℕ) : ℝ) - (([] : List ℕ).length : ℝ)) -
            (([] : List ℕ).length : ℝ)) /
          ((filtered_index_vector (e_x * e_y) ([] ++ [])).length : ℝ)
      else 0 := rfl
  have hdv0 : ∀ e' : ℕ,
      0 ≤ (fea_init e_x e_y vf p r mv).design_variables e' := by
    intro e'
    rw [hdvval]
    simp only
    rw [if_neg (List.not_mem_nil e')]
    by_cases hact : e' ∈ filtered_index_vector (e_x * e_y) ([] ++ [])
    · rw [if_pos hact]
      apply div_nonneg _ (Nat.cast_nonneg _)
      simp only [List.length_nil, Nat.cast_zero, sub_zero]
      exact mul_nonneg hvf0 (Nat.cast_nonneg _)
    · rw [if_neg hact]
  have hphys_eq : (fea_optimization_step oracle
      (fea_init e_x e_y vf p r mv)).design_variables_physical e =
      if e ∈ (fea_init e_x e_y vf p r mv).active_elements then
        (filter (reshape_col e_y e_x
            (fea_init e_x e_y vf p r mv).design_variables)
            (filter_kernel r)).entry
            ((e % e_y : ℕ) : ℤ) ((e / e_y : ℕ) : ℤ) /
          (filter (ones e_y e_x) (filter_kernel r)).entry
            ((e % e_y : ℕ) : ℤ) ((e / e_y : ℕ) : ℤ)
      else (fea_init e_x e_y vf p r mv).design_variables_physical e := rfl
  have hρ : 0 ≤ (fea_optimization_step oracle
      (fea_init e_x e_y vf p r mv)).design_variables_physical e := by
    rw [hphys_eq, if_pos hmem]
    refine div_nonneg ?_ ?_
    · refine filter_entry_nonneg _ _
        (fun k l _ _ => filter_kernel_entry_nonneg r _ _) ?_ _ _
      intro a b _ _ _ _
      exact hdv0 _
    · refine le_of_lt (filter_weights_entry_pos e_y e_x r hr _ _
        (Int.ofNat_nonneg _) ?_ (Int.ofNat_nonneg _) ?_)
      · exact_mod_cast Nat.mod_lt e (by omega)
      · exact_mod_cast (Nat.div_lt_iff_lt_mul (by omega)).mpr
          (by rw [Nat.mul_comm] at he ⊢; exact he)
  have hsd : (fea_optimization_step oracle
      (fea_init e_x e_y vf p r mv)).stiffness_derivative e =
      -p * ((1 : ℝ) - 1e-9) *
        ((fea_optimization_step oracle
          (fea_init e_x e_y vf p r mv)).design_variables_physical e) ^
          (p - 1) := by
    show (if e ∈ (fea_init e_x e_y vf p r mv).active_elements then
        -p * ((1 : ℝ) - 1e-9) *
          ((fea_optimization_step oracle
            (fea_init e_x e_y vf p r mv)).design_variables_physical e) ^
            (p - 1)
      else (fea_init e_x e_y vf p r mv).stiffness_derivative e) = _
    rw [if_pos hmem]
  have hsd_le : (fea_optimization_step oracle
      (fea_init e_x e_y vf p r mv)).stiffness_derivative e ≤ 0 := by
    rw [hsd]
    have hpow : 0 ≤ ((fea_optimization_step oracle
        (fea_init e_x e_y vf p r mv)).design_variables_physical e) ^
        (p - 1) := Real.rpow_nonneg hρ _
    have h1 : 0 ≤ p * ((1 : ℝ) - 1e-9) *
        ((fea_optimization_step oracle
          (fea_init e_x e_y vf p r mv)).design_variables_physical e) ^
          (p - 1) :=
      mul_nonneg (mul_nonneg (by linarith) (by norm_num)) hpow
    linarith
  have hquad := element_quadform_nonneg fun c => displacement_matrix
    (fea_optimization_step oracle (fea_init e_x e_y vf p r mv)) e c
  unfold compliance_derivative
  exact mul_nonpos_iff.mpr (Or.inr ⟨hsd_le, hquad⟩)

/-- Witness for C7 on the 1×1 mesh with the default-style parameters
`vf = 1/2`, `p = 3`, `r = 3/2` and the zero solver oracle. -/
theorem compliance_derivative_nonpos_witness :
    (1 ≤ 1) ∧ ((1 : ℚ) ≤ 3 / 2) ∧ ((1 : ℝ) ≤ 3) ∧
    ((0 : ℝ) ≤ 1 / 2) ∧ ((1 / 2 : ℝ) ≤ 1) ∧ (0 < 1 * 1) ∧
    compliance_derivative
      (fea_optimization_step (fun _ _ => fun _ => 0)
        (fea_init 1 1 (1 / 2) 3 (3 / 2) (1 / 5))) 0 ≤ 0 :=
  ⟨le_refl 1, by norm_num, by norm_num, by norm_num, by norm_num,
    Nat.one_pos,
    compliance_derivative_nonpos 1 1 (1 / 2) 3 (3 / 2) (1 / 5)
      (fun _ _ => fun _ => 0) (le_refl 1) (le_refl 1) (by norm_num)
      (by norm_num) (by norm_num) (by norm_num) 0 Nat.one_pos⟩

end FEA
